import Mathlib

/-!
Verification of insider-message-system: the resilient dispatch pipeline

A shallow embedding of `pkg/circuitbreaker/circuitbreaker.go`,
`internal/domain/message.go`, `internal/application/services/message.go`,
`internal/infrastructure/webhook/client.go` and
`internal/application/services/scheduler.go`, together with the properties of
the dispatch pipeline that follow from the code.

Conventions of the embedding

* Go `int`, `int64` and `time.Duration` are 64-bit two's-complement integers:
  they are carried as `Int` and every `++` and `--` goes through `wrapInt64`.
* A `time.Time` is the number of nanoseconds since the zero `time.Time{}`.
* A Go `error` is a `GoError`; the nil error is `none`.
* `sync.RWMutex` is the boolean field `mu`; `Lock` on a held mutex never
  returns, which the breaker outcomes record as `blocked`.
* The guarded operation handed to `Execute` is given by its result; the
  outcome counts how often it was invoked.
* Values read from the environment (`uuid.New()`, `time.Now()`, the result
  of a `select`) are arguments of the function that reads them.
* A background goroutine is followed until it is at rest; the counter of the
  scheduler's `sync.WaitGroup` is the number of loops that have not returned.
-/

namespace InsiderMessageSystem

/-! ## Go errors -/

/-- Error values that occur in the repository. `ErrCircuitOpen` and
`ErrCircuitHalfOpen` are the two package variables of `circuitbreaker`,
compared by identity in Go; `errorString` is a value made by `errors.New` or
`fmt.Errorf`; `appError` is `*errors.Error` of `pkg/errors`. -/
inductive GoError where
  | ErrCircuitOpen
  | ErrCircuitHalfOpen
  | errorString (text : String)
  | appError (Code Message Details : String) (Status : Int)
  deriving DecidableEq, Repr

/-- The method `Error()` of each error value. -/
def GoError.Error : GoError → String
  | .ErrCircuitOpen => "circuit breaker is open"
  | .ErrCircuitHalfOpen => "circuit breaker is half-open"
  | .errorString text => text
  | .appError code message _ _ => "[" ++ code ++ "] " ++ message

/-- The constructor `NewError` of `pkg/errors`. -/
def NewError (code message : String) (status : Int) : GoError :=
  .appError code message "" status

/-- The constructor `NewErrorWithDetails` of `pkg/errors`. -/
def NewErrorWithDetails (code message details : String) (status : Int) : GoError :=
  .appError code message details status

/-- The function `WrapError` of `pkg/errors`: the details are the text of the
wrapped error. -/
def WrapError (err : GoError) (code message : String) (status : Int) : GoError :=
  .appError code message err.Error status

/-- The package variable `ErrInvalidMessageContent`; 400 is
`http.StatusBadRequest`. -/
def ErrInvalidMessageContent : GoError :=
  NewError "INVALID_MESSAGE_CONTENT" "Message content exceeds character limit" 400

/-- The field `Code` of an `*errors.Error`; other errors have none. -/
def GoError.code? : GoError → Option String
  | .appError code _ _ _ => some code
  | _ => none

/-- The field `Status` of an `*errors.Error`; other errors have none. -/
def GoError.status? : GoError → Option Int
  | .appError _ _ _ status => some status
  | _ => none

/-! ## Machine integers and time -/

/-- Two's-complement wrap-around of a 64-bit signed integer. -/
def wrapInt64 (x : Int) : Int :=
  (x + 9223372036854775808) % 18446744073709551616 - 9223372036854775808

/-- Membership in the range of a Go `int` (64 bit). -/
def IsInt64 (x : Int) : Prop :=
  -9223372036854775808 ≤ x ∧ x < 9223372036854775808

instance (x : Int) : Decidable (IsInt64 x) := by
  unfold IsInt64; infer_instance

/-- The saturating difference `now.Sub(t)` that `time.Since(t)` returns when
the clock reads `now`. -/
def timeSince (now t : Int) : Int :=
  if now - t > 9223372036854775807 then 9223372036854775807
  else if now - t < -9223372036854775808 then -9223372036854775808
  else now - t

/-- The duration `time.Second` in nanoseconds. -/
def Second : Int := 1000000000

/-- The duration `time.Millisecond` in nanoseconds. -/
def Millisecond : Int := 1000000

/-! ## pkg/circuitbreaker -/

/-- The Go type `State` is an `int`. -/
abbrev State := Int

def StateClosed : State := 0
def StateHalfOpen : State := 1
def StateOpen : State := 2

structure Config where
  FailureThreshold : Int
  SuccessThreshold : Int
  Timeout : Int
  MaxConcurrentCalls : Int
  deriving DecidableEq, Repr

structure CircuitBreaker where
  config : Config
  state : State
  /-- Whether the write lock of the `sync.RWMutex` is held. -/
  mu : Bool
  failureCount : Int
  lastFailureTime : Int
  successCount : Int
  concurrentCalls : Int
  totalCalls : Int
  totalFailures : Int
  totalSuccesses : Int
  totalTimeouts : Int
  deriving DecidableEq, Repr

/-- The constructor `New`: non-positive configuration values are replaced by
the defaults; the breaker starts Closed with zero counters and the zero time. -/
def New (config : Config) : CircuitBreaker :=
  let config := if config.FailureThreshold ≤ 0 then { config with FailureThreshold := 5 } else config
  let config := if config.SuccessThreshold ≤ 0 then { config with SuccessThreshold := 3 } else config
  let config := if config.Timeout ≤ 0 then { config with Timeout := 30 * Second } else config
  let config := if config.MaxConcurrentCalls ≤ 0 then { config with MaxConcurrentCalls := 1 } else config
  { config := config, state := StateClosed, mu := false,
    failureCount := 0, lastFailureTime := 0, successCount := 0, concurrentCalls := 0,
    totalCalls := 0, totalFailures := 0, totalSuccesses := 0, totalTimeouts := 0 }

/-- The call `cb.mu.Lock()`: `none` when the mutex is already held, in which
case the calling goroutine waits until somebody else unlocks. -/
def CircuitBreaker.Lock (cb : CircuitBreaker) : Option CircuitBreaker :=
  if cb.mu then none else some { cb with mu := true }

/-- The call `cb.mu.Unlock()`. -/
def CircuitBreaker.Unlock (cb : CircuitBreaker) : CircuitBreaker :=
  { cb with mu := false }

def CircuitBreaker.transitionToOpen (cb : CircuitBreaker) : CircuitBreaker :=
  if cb.state ≠ StateOpen then
    { cb with state := StateOpen, successCount := 0, concurrentCalls := 0 }
  else cb

def CircuitBreaker.transitionToHalfOpen (cb : CircuitBreaker) : CircuitBreaker :=
  if cb.state ≠ StateHalfOpen then
    { cb with state := StateHalfOpen, successCount := 0, concurrentCalls := 0 }
  else cb

def CircuitBreaker.transitionToClosed (cb : CircuitBreaker) : CircuitBreaker :=
  if cb.state ≠ StateClosed then
    { cb with state := StateClosed, failureCount := 0, successCount := 0, concurrentCalls := 0 }
  else cb

/-- What becomes of one call on the breaker made by a goroutine that is alone
with it: it returns `err`, or it is parked for ever inside `mu.Lock()`.
`invoked` counts the invocations of the guarded operation during the call and
`cb` is the breaker the call leaves behind. -/
inductive Outcome where
  | returned (err : Option GoError) (cb : CircuitBreaker) (invoked : Nat)
  | blocked (cb : CircuitBreaker) (invoked : Nat)
  deriving DecidableEq, Repr

def Outcome.cb : Outcome → CircuitBreaker
  | .returned _ cb _ => cb
  | .blocked cb _ => cb

def Outcome.invoked : Outcome → Nat
  | .returned _ _ n => n
  | .blocked _ n => n

/-- The method `executeClosed`; `fn` is the result of the guarded operation
and `now` the reading of `time.Now()`. -/
def CircuitBreaker.executeClosed (cb : CircuitBreaker) (fn : Option GoError) (now : Int) : Outcome :=
  match cb.Lock with
  | none => .blocked cb 0
  | some cb =>
    let cb := { cb with totalCalls := wrapInt64 (cb.totalCalls + 1) }
    let cb := cb.Unlock
    let err := fn
    match cb.Lock with
    | none => .blocked cb 1
    | some cb =>
      match err with
      | some _ =>
        let cb := { cb with failureCount := wrapInt64 (cb.failureCount + 1) }
        let cb := { cb with lastFailureTime := now }
        let cb := { cb with totalFailures := wrapInt64 (cb.totalFailures + 1) }
        let cb := if cb.failureCount ≥ cb.config.FailureThreshold then cb.transitionToOpen else cb
        .returned err cb.Unlock 1
      | none =>
        let cb := { cb with failureCount := 0 }
        let cb := { cb with totalSuccesses := wrapInt64 (cb.totalSuccesses + 1) }
        .returned err cb.Unlock 1

/-- The method `executeHalfOpen`. -/
def CircuitBreaker.executeHalfOpen (cb : CircuitBreaker) (fn : Option GoError) : Outcome :=
  match cb.Lock with
  | none => .blocked cb 0
  | some cb =>
    if cb.concurrentCalls ≥ cb.config.MaxConcurrentCalls then
      .returned (some .ErrCircuitHalfOpen) cb.Unlock 0
    else
      let cb := { cb with concurrentCalls := wrapInt64 (cb.concurrentCalls + 1) }
      let cb := { cb with totalCalls := wrapInt64 (cb.totalCalls + 1) }
      let cb := cb.Unlock
      let err := fn
      match cb.Lock with
      | none => .blocked cb 1
      | some cb =>
        let cb := { cb with concurrentCalls := wrapInt64 (cb.concurrentCalls - 1) }
        match err with
        | some _ =>
          let cb := { cb with totalFailures := wrapInt64 (cb.totalFailures + 1) }
          let cb := cb.transitionToOpen
          .returned err cb.Unlock 1
        | none =>
          let cb := { cb with successCount := wrapInt64 (cb.successCount + 1) }
          let cb := { cb with totalSuccesses := wrapInt64 (cb.totalSuccesses + 1) }
          let cb := if cb.successCount ≥ cb.config.SuccessThreshold then cb.transitionToClosed else cb
          .returned err cb.Unlock 1

/-- The method `executeOpen`. It takes the lock, defers the unlock, and on an
elapsed timeout calls `executeHalfOpen` before the deferred unlock has run. -/
def CircuitBreaker.executeOpen (cb : CircuitBreaker) (fn : Option GoError) (now : Int) : Outcome :=
  match cb.Lock with
  | none => .blocked cb 0
  | some cb =>
    if timeSince now cb.lastFailureTime ≥ cb.config.Timeout then
      let cb := cb.transitionToHalfOpen
      match cb.executeHalfOpen fn with
      | .returned err cb invoked => .returned err cb.Unlock invoked
      | .blocked cb invoked => .blocked cb invoked
    else
      let cb := { cb with totalTimeouts := wrapInt64 (cb.totalTimeouts + 1) }
      .returned (some .ErrCircuitOpen) cb.Unlock 0

/-- The error built by `fmt.Errorf("unknown circuit breaker state: %d", s)`. -/
def unknownStateError (s : State) : GoError :=
  .errorString ("unknown circuit breaker state: " ++ toString s)

/-- The method `Execute`. -/
def CircuitBreaker.Execute (cb : CircuitBreaker) (fn : Option GoError) (now : Int) : Outcome :=
  match cb.Lock with
  | none => .blocked cb 0
  | some locked =>
    let currentState := locked.state
    let cb := locked.Unlock
    if currentState = StateClosed then cb.executeClosed fn now
    else if currentState = StateHalfOpen then cb.executeHalfOpen fn
    else if currentState = StateOpen then cb.executeOpen fn now
    else .returned (some (unknownStateError currentState)) cb 0

/-- A sequence of `Execute` calls made one after the other, each given by the
result of its guarded operation and the clock reading of the call. The value
is the list of returned errors and the final breaker, or `none` as soon as one
call never returns. -/
def CircuitBreaker.ExecuteAll (cb : CircuitBreaker) :
    List (Option GoError × Int) → Option (List (Option GoError) × CircuitBreaker)
  | [] => some ([], cb)
  | (fn, now) :: rest =>
    match cb.Execute fn now with
    | .returned err cb _ =>
      match cb.ExecuteAll rest with
      | some (errs, cb) => some (err :: errs, cb)
      | none => none
    | .blocked _ _ => none

/-- The method `GetState`: it takes the read lock, which waits while the
write lock is held, and returns the field `state`. It reads no clock. -/
def CircuitBreaker.GetState (cb : CircuitBreaker) : Option State :=
  if cb.mu then none else some cb.state

/-- The snapshot that `GetMetrics` returns, without the nested `config`
map: one field per key of the map. -/
structure Metrics where
  state : State
  failure_count : Int
  success_count : Int
  concurrent_calls : Int
  total_calls : Int
  total_failures : Int
  total_successes : Int
  total_timeouts : Int
  last_failure_time : Int
  deriving DecidableEq, Repr

/-- The method `GetMetrics`; `none` while the write lock is held. -/
def CircuitBreaker.GetMetrics (cb : CircuitBreaker) : Option Metrics :=
  if cb.mu then none
  else
    some
      { state := cb.state, failure_count := cb.failureCount, success_count := cb.successCount,
        concurrent_calls := cb.concurrentCalls, total_calls := cb.totalCalls,
        total_failures := cb.totalFailures, total_successes := cb.totalSuccesses,
        total_timeouts := cb.totalTimeouts, last_failure_time := cb.lastFailureTime }

/-- The method `ForceOpen`; `none` when the lock is held. -/
def CircuitBreaker.ForceOpen (cb : CircuitBreaker) : Option CircuitBreaker :=
  match cb.Lock with
  | none => none
  | some cb => some cb.transitionToOpen.Unlock

/-- The method `ForceClose`; `none` when the lock is held. -/
def CircuitBreaker.ForceClose (cb : CircuitBreaker) : Option CircuitBreaker :=
  match cb.Lock with
  | none => none
  | some cb => some cb.transitionToClosed.Unlock

/-- The method `Reset`; `none` when the lock is held. The zero `time.Time{}`
is 0. -/
def CircuitBreaker.Reset (cb : CircuitBreaker) : Option CircuitBreaker :=
  match cb.Lock with
  | none => none
  | some cb =>
    let cb := { cb with state := StateClosed, failureCount := 0, successCount := 0,
                        concurrentCalls := 0, totalCalls := 0, totalFailures := 0,
                        totalSuccesses := 0, totalTimeouts := 0, lastFailureTime := 0 }
    some cb.Unlock

/-- A call on the breaker: `Execute` with the result of its guarded operation
and the clock reading, or one of the three control methods. -/
inductive BreakerOp where
  | Execute (fn : Option GoError) (now : Int)
  | ForceOpen
  | ForceClose
  | Reset
  deriving DecidableEq, Repr

/-- The breaker after one call that has returned; `none` when the call waits
for the lock for ever. -/
def CircuitBreaker.apply (cb : CircuitBreaker) : BreakerOp → Option CircuitBreaker
  | .Execute fn now =>
    match cb.Execute fn now with
    | .returned _ cb _ => some cb
    | .blocked _ _ => none
  | .ForceOpen => cb.ForceOpen
  | .ForceClose => cb.ForceClose
  | .Reset => cb.Reset

/-- The breaker after a sequence of calls made one after the other, each of
which has returned; `none` as soon as one call never returns. -/
def CircuitBreaker.applyAll (cb : CircuitBreaker) : List BreakerOp → Option CircuitBreaker
  | [] => some cb
  | op :: rest =>
    match cb.apply op with
    | some cb => cb.applyAll rest
    | none => none

/-- The first critical section of `executeHalfOpen`, from `cb.mu.Lock()` to
`cb.mu.Unlock()`, as one step: the breaker it leaves and whether the caller
was admitted. -/
def CircuitBreaker.admitProbe (cb : CircuitBreaker) : CircuitBreaker × Bool :=
  if cb.concurrentCalls ≥ cb.config.MaxConcurrentCalls then (cb, false)
  else
    let cb := { cb with concurrentCalls := wrapInt64 (cb.concurrentCalls + 1) }
    let cb := { cb with totalCalls := wrapInt64 (cb.totalCalls + 1) }
    (cb, true)

/-- The second critical section of `executeHalfOpen`, from the second
`cb.mu.Lock()` to the deferred unlock, as one step; `err` is the result of
the guarded operation of the caller. -/
def CircuitBreaker.completeProbe (cb : CircuitBreaker) (err : Option GoError) : CircuitBreaker :=
  let cb := { cb with concurrentCalls := wrapInt64 (cb.concurrentCalls - 1) }
  match err with
  | some _ =>
    let cb := { cb with totalFailures := wrapInt64 (cb.totalFailures + 1) }
    cb.transitionToOpen
  | none =>
    let cb := { cb with successCount := wrapInt64 (cb.successCount + 1) }
    let cb := { cb with totalSuccesses := wrapInt64 (cb.totalSuccesses + 1) }
    if cb.successCount ≥ cb.config.SuccessThreshold then cb.transitionToClosed else cb

/-- A step of one of several callers inside `executeHalfOpen`: the admission
or the completion with the result of the guarded operation. -/
inductive ProbeStep where
  | admission
  | complete (err : Option GoError)
  deriving DecidableEq, Repr

/-- An interleaving of probe steps: the breaker and the number of admitted
callers that have not completed yet. A completion is a step only of a caller
that was admitted before. -/
def CircuitBreaker.probeSteps (cb : CircuitBreaker) (inFlight : Nat) :
    List ProbeStep → Option (CircuitBreaker × Nat)
  | [] => some (cb, inFlight)
  | .admission :: rest =>
    if cb.admitProbe.2 then CircuitBreaker.probeSteps cb.admitProbe.1 (inFlight + 1) rest
    else CircuitBreaker.probeSteps cb.admitProbe.1 inFlight rest
  | .complete err :: rest =>
    match inFlight with
    | 0 => none
    | n + 1 => CircuitBreaker.probeSteps (cb.completeProbe err) n rest

/-- The invariant of the breaker at rest: the lock is free, the state is one
of the three named states, the configuration is normalised, the failure count
of a Closed breaker is below the threshold, no probe is in flight, and the
success count is 0 outside HalfOpen and below the threshold in HalfOpen. -/
def CircuitBreaker.wellFormed (cb : CircuitBreaker) : Prop :=
  cb.mu = false ∧
    (cb.state = StateClosed ∨ cb.state = StateHalfOpen ∨ cb.state = StateOpen) ∧
    1 ≤ cb.config.FailureThreshold ∧ 1 ≤ cb.config.SuccessThreshold ∧
    1 ≤ cb.config.MaxConcurrentCalls ∧
    IsInt64 cb.config.FailureThreshold ∧ IsInt64 cb.config.SuccessThreshold ∧
    0 ≤ cb.failureCount ∧
    (cb.state = StateClosed → cb.failureCount < cb.config.FailureThreshold) ∧
    cb.concurrentCalls = 0 ∧
    (cb.state ≠ StateHalfOpen → cb.successCount = 0) ∧
    (cb.state = StateHalfOpen → 0 ≤ cb.successCount ∧ cb.successCount < cb.config.SuccessThreshold)

/-- The totals of a breaker after `calls` calls: none is negative, the calls
split into admitted and rejected ones, and the admitted ones into failures
and successes. -/
def CircuitBreaker.totalsAfter (cb : CircuitBreaker) (calls : Nat) : Prop :=
  cb.mu = false ∧ (cb.state = StateClosed ∨ cb.state = StateOpen) ∧
    0 ≤ cb.totalFailures ∧ 0 ≤ cb.totalSuccesses ∧ 0 ≤ cb.totalTimeouts ∧
    cb.totalCalls = cb.totalFailures + cb.totalSuccesses ∧
    cb.totalCalls + cb.totalTimeouts = calls

/-! ## internal/domain and pkg/constants/enums/messagestatus -/

/-- The Go type `MessageStatus` is a `string`. -/
abbrev MessageStatus := String

namespace messagestatus

def Pending : MessageStatus := "pending"
def Sent : MessageStatus := "sent"
def Failed : MessageStatus := "failed"

end messagestatus

/-- A `uuid.UUID`; the service only passes identifiers along. -/
abbrev UUID := Nat

structure Message where
  ID : UUID
  To : String
  Content : String
  Status : MessageStatus
  CreatedAt : Int
  SentAt : Option Int
  MessageID : Option String
  FailureReason : Option String
  deriving DecidableEq, Repr

structure MessageResponse where
  Message : String
  MessageID : String
  deriving DecidableEq, Repr

structure WebhookRequest where
  To : String
  Content : String
  deriving DecidableEq, Repr

structure CacheEntry where
  MessageID : String
  SentAt : Int
  deriving DecidableEq, Repr

/-- The method `IsValidForSending`; Go's `len` of a string is its length in
bytes. -/
def Message.IsValidForSending (m : Message) : Bool :=
  m.Status == messagestatus.Pending && decide (m.Content.utf8ByteSize ≤ 160)

structure MessageRequest where
  To : String
  Content : String
  deriving DecidableEq, Repr

/-- The constructor `NewMessage`; `id` is the value of `uuid.New()` and `now`
the reading of `time.Now()`. -/
def NewMessage (recipient content : String) (id : UUID) (now : Int) : Message :=
  { ID := id, To := recipient, Content := content, Status := messagestatus.Pending, CreatedAt := now,
    SentAt := none, MessageID := none, FailureReason := none }

/-- The method `MarkAsSent`; `now` is the reading of `time.Now()`. -/
def Message.MarkAsSent (m : Message) (messageID : String) (now : Int) : Message :=
  { m with Status := messagestatus.Sent, SentAt := some now, MessageID := some messageID }

/-- The method `MarkAsFailed`. -/
def Message.MarkAsFailed (m : Message) (reason : String) : Message :=
  { m with Status := messagestatus.Failed, FailureReason := some reason }

/-! ## internal/application/services: the message service

The three collaborators of the service are interfaces. Each method is a
function of its arguments and of the state `σ` of the outside world, giving
its result and the next state. A method with the Go result `(value, error)`
gives `Except GoError value`: either the error or the value, as
`GetPendingMessages` of `repos/message.go` and `SendMessage` of
`webhook/client.go` do. The fetched `[]*domain.Message` is a list of messages,
none of them a nil pointer. -/

deriving instance DecidableEq for Except

/-- The methods of `repos.Message` that the service calls on the write path
and in the batch processor. `Create` reads the message it is handed and
leaves it as it is. -/
structure MessageRepo (σ : Type) where
  Create : Message → σ → Option GoError × σ
  GetPendingMessages : Int → σ → Except GoError (List Message) × σ
  GetSentMessages : Int → Int → σ → Except GoError (List Message) × σ
  UpdateStatus : UUID → MessageStatus → Option String → Option String → σ → Option GoError × σ
  GetTotalSentCount : σ → Except GoError Int × σ

/-- The method of `webhook.Client` that the batch processor calls. -/
structure WebhookClient (σ : Type) where
  SendMessage : WebhookRequest → σ → Except GoError MessageResponse × σ

/-- The method of `redis.CacheService` that the batch processor calls. -/
structure CacheService (σ : Type) where
  SetMessageCache : UUID → CacheEntry → σ → Option GoError × σ

/-- The struct `message`; a nil `cacheService` is `none`. -/
structure message (σ : Type) where
  messageRepo : MessageRepo σ
  webhookService : WebhookClient σ
  cacheService : Option (CacheService σ)

/-- One call of the service on a collaborator, with its arguments and the
result the collaborator gave. -/
inductive Call where
  | Create (message : Message) (result : Option GoError)
  | GetPendingMessages (limit : Int) (result : Except GoError (List Message))
  | GetSentMessages (offset limit : Int) (result : Except GoError (List Message))
  | GetTotalSentCount (result : Except GoError Int)
  | SendMessage (request : WebhookRequest) (result : Except GoError MessageResponse)
  | UpdateStatus (id : UUID) (status : MessageStatus) (messageID failureReason : Option String)
      (result : Option GoError)
  | SetMessageCache (id : UUID) (entry : CacheEntry) (result : Option GoError)
  deriving DecidableEq, Repr

/-- The method `CreateMessage`: the returned pair `(*Message, error)`, the
next state of the world and the calls made; `id` and `now` are the values of
`uuid.New()` and `time.Now()` inside `NewMessage`. -/
def message.CreateMessage {σ : Type} (s : message σ) (request : MessageRequest) (id : UUID)
    (now : Int) (w : σ) : (Option Message × Option GoError) × σ × List Call :=
  if request.Content.utf8ByteSize > 160 then ((none, some ErrInvalidMessageContent), w, [])
  else
    let message := NewMessage request.To request.Content id now
    match s.messageRepo.Create message w with
    | (some err, w) => ((none, some err), w, [.Create message (some err)])
    | (none, w) => ((some message, none), w, [.Create message none])

/-- The method `GetSentMessages` of the service: the triple
`([]*Message, int64, error)`, the next state of the world and the calls made. -/
def message.GetSentMessages {σ : Type} (s : message σ) (page pageSize : Int) (w : σ) :
    (Option (List Message) × Int × Option GoError) × σ × List Call :=
  let offset := wrapInt64 ((page - 1) * pageSize)
  match s.messageRepo.GetSentMessages offset pageSize w with
  | (.error err, w) => ((none, 0, some err), w, [.GetSentMessages offset pageSize (.error err)])
  | (.ok messages, w) =>
    match s.messageRepo.GetTotalSentCount w with
    | (.error err, w) =>
      ((none, 0, some err), w,
        [.GetSentMessages offset pageSize (.ok messages), .GetTotalSentCount (.error err)])
    | (.ok total, w) =>
      ((some messages, total, none), w,
        [.GetSentMessages offset pageSize (.ok messages), .GetTotalSentCount (.ok total)])

/-- The method `sendSingleMessage`: the returned error, the next state of the
world and the calls made, in order. -/
def message.sendSingleMessage {σ : Type} (s : message σ) (m : Message) (w : σ) :
    Option GoError × σ × List Call :=
  if !m.IsValidForSending then (none, w, [])
  else
    let webhookRequest : WebhookRequest := { To := m.To, Content := m.Content }
    match s.webhookService.SendMessage webhookRequest w with
    | (.error err, w) =>
      let failureReason := err.Error
      match s.messageRepo.UpdateStatus m.ID messagestatus.Failed none (some failureReason) w with
      | (r, w) =>
        (some err, w,
          [.SendMessage webhookRequest (.error err),
           .UpdateStatus m.ID messagestatus.Failed none (some failureReason) r])
    | (.ok response, w) =>
      match s.messageRepo.UpdateStatus m.ID messagestatus.Sent (some response.MessageID) none w with
      | (some err, w) =>
        (some err, w,
          [.SendMessage webhookRequest (.ok response),
           .UpdateStatus m.ID messagestatus.Sent (some response.MessageID) none (some err)])
      | (none, w) =>
        match s.cacheService with
        | some cache =>
          let cacheEntry : CacheEntry := { MessageID := response.MessageID, SentAt := m.CreatedAt }
          match cache.SetMessageCache m.ID cacheEntry w with
          | (r, w) =>
            (none, w,
              [.SendMessage webhookRequest (.ok response),
               .UpdateStatus m.ID messagestatus.Sent (some response.MessageID) none none,
               .SetMessageCache m.ID cacheEntry r])
        | none =>
          (none, w,
            [.SendMessage webhookRequest (.ok response),
             .UpdateStatus m.ID messagestatus.Sent (some response.MessageID) none none])

/-- The loop `for _, message := range messages` of `SendPendingMessages`: the
error of `sendSingleMessage` is logged and the loop continues. -/
def message.sendEach {σ : Type} (s : message σ) : List Message → σ → σ × List Call
  | [], w => (w, [])
  | m :: rest, w =>
    match s.sendSingleMessage m w with
    | (_, w, calls) =>
      match message.sendEach s rest w with
      | (w, more) => (w, calls ++ more)

/-- The method `SendPendingMessages`. -/
def message.SendPendingMessages {σ : Type} (s : message σ) (limit : Int) (w : σ) :
    Option GoError × σ × List Call :=
  match s.messageRepo.GetPendingMessages limit w with
  | (.error err, w) => (some err, w, [.GetPendingMessages limit (.error err)])
  | (.ok messages, w) =>
    if messages.length = 0 then (none, w, [.GetPendingMessages limit (.ok messages)])
    else
      match s.sendEach messages w with
      | (w, calls) => (none, w, .GetPendingMessages limit (.ok messages) :: calls)

/-- The requests of the `SendMessage` calls in a list of calls. -/
def sendRequests (calls : List Call) : List WebhookRequest :=
  calls.filterMap fun c => match c with
    | .SendMessage request _ => some request
    | _ => none

/-- The results of the `SendMessage` calls in a list of calls. -/
def sendResults (calls : List Call) : List (Except GoError MessageResponse) :=
  calls.filterMap fun c => match c with
    | .SendMessage _ result => some result
    | _ => none

/-- The arguments of the `UpdateStatus` calls in a list of calls. -/
def statusUpdates (calls : List Call) :
    List (UUID × MessageStatus × Option String × Option String) :=
  calls.filterMap fun c => match c with
    | .UpdateStatus id status messageID failureReason _ => some (id, status, messageID, failureReason)
    | _ => none

/-- The `SetMessageCache` calls in a list of calls. -/
def cacheWrites (calls : List Call) : List (UUID × CacheEntry) :=
  calls.filterMap fun c => match c with
    | .SetMessageCache id entry _ => some (id, entry)
    | _ => none

/-- The status update stated for message `m` after a send with the given
result: `(id, Sent, external id, nil)` after a success and
`(id, Failed, nil, err.Error())` after a failure. The theorems compare the
calls of `sendSingleMessage` with it. -/
def updateFor (m : Message) : Except GoError MessageResponse →
    UUID × MessageStatus × Option String × Option String
  | .ok response => (m.ID, messagestatus.Sent, some response.MessageID, none)
  | .error err => (m.ID, messagestatus.Failed, none, some err.Error)


/-- The calls that are left when the cache writes are taken out. -/
def withoutCacheWrites (calls : List Call) : List Call :=
  calls.filter fun c => match c with
    | .SetMessageCache _ _ _ => false
    | _ => true

/-- The service `s` with its store and webhook left as they are and the cache
replaced by `cache`, which keeps a state `κ` of its own: the store and the
webhook see the `σ` part of the world only, the cache the `κ` part only. -/
def message.withCache {σ κ : Type} (s : message σ) (cache : Option (CacheService κ)) :
    message (σ × κ) where
  messageRepo :=
    { Create := fun m w => ((s.messageRepo.Create m w.1).1, ((s.messageRepo.Create m w.1).2, w.2)),
      GetPendingMessages := fun limit w =>
        ((s.messageRepo.GetPendingMessages limit w.1).1,
          ((s.messageRepo.GetPendingMessages limit w.1).2, w.2)),
      GetSentMessages := fun offset limit w =>
        ((s.messageRepo.GetSentMessages offset limit w.1).1,
          ((s.messageRepo.GetSentMessages offset limit w.1).2, w.2)),
      UpdateStatus := fun id status messageID failureReason w =>
        ((s.messageRepo.UpdateStatus id status messageID failureReason w.1).1,
          ((s.messageRepo.UpdateStatus id status messageID failureReason w.1).2, w.2)),
      GetTotalSentCount := fun w =>
        ((s.messageRepo.GetTotalSentCount w.1).1, ((s.messageRepo.GetTotalSentCount w.1).2, w.2)) }
  webhookService :=
    { SendMessage := fun request w =>
        ((s.webhookService.SendMessage request w.1).1,
          ((s.webhookService.SendMessage request w.1).2, w.2)) }
  cacheService :=
    cache.map fun c =>
      { SetMessageCache := fun id entry w =>
          ((c.SetMessageCache id entry w.2).1, (w.1, (c.SetMessageCache id entry w.2).2)) }

/-- A run of calls that holds no cache write, or that is a successful send,
the successful update to Sent with the external id of that response, and one
cache write for the same message. -/
def cacheWriteAfterSuccess (chunk : List Call) : Prop :=
  cacheWrites chunk = [] ∨
    ∃ request response id entry result,
      chunk = [.SendMessage request (.ok response),
        .UpdateStatus id messagestatus.Sent (some response.MessageID) none none,
        .SetMessageCache id entry result]

/-! ## internal/application/usecases: the list of sent messages -/

/-- The struct `GetMessagesRequest`. The query binding
`omitempty,min=1` (and `max=100` for the limit) leaves a field that the
query omits at 0. -/
structure GetMessagesRequest where
  Page : Int
  Limit : Int
  deriving DecidableEq, Repr

/-- The requests that the query binding of `GET /v1/messages/sent` lets
through: each of page and limit is omitted, that is 0, or within its bounds. -/
def GetMessagesRequest.accepted (r : GetMessagesRequest) : Prop :=
  (r.Page = 0 ∨ (1 ≤ r.Page ∧ IsInt64 r.Page)) ∧ (r.Limit = 0 ∨ (1 ≤ r.Limit ∧ r.Limit ≤ 100))

/-- Modelled from the spec: the struct `pagination.PaginationInfo`, whose
declaration is not among the sources; its four fields are those that
`Execute` fills and that `pagination_test.go` reads. -/
structure PaginationInfo where
  Page : Int
  PageSize : Int
  Total : Int
  TotalPages : Int
  deriving DecidableEq, Repr

structure GetMessagesResponse where
  Data : List Message
  Pagination : PaginationInfo
  deriving DecidableEq, Repr

/-- What becomes of a call of the use case: it returns the pair
`(*GetMessagesResponse, error)` or it panics. -/
inductive UseCaseOutcome where
  | returned (response : Option GetMessagesResponse) (err : Option GoError)
  | panicked (reason : String)
  deriving DecidableEq, Repr

/-- The method `Execute` of `GetMessagesUseCase`, over the service as it is
wired in `main`. The quotient of two `int64` truncates toward zero and
panics on a zero divisor. -/
def GetMessagesUseCase.Execute {σ : Type} (messageService : message σ)
    (request : GetMessagesRequest) (w : σ) : UseCaseOutcome × σ × List Call :=
  match messageService.GetSentMessages request.Page request.Limit w with
  | ((_, _, some err), w, calls) => (.returned none (some err), w, calls)
  | ((messages, total, none), w, calls) =>
    if request.Limit = 0 then
      (.panicked "runtime error: integer divide by zero", w, calls)
    else
      let totalPages :=
        wrapInt64 (Int.tdiv (wrapInt64 (wrapInt64 (total + request.Limit) - 1)) request.Limit)
      (.returned
        (some
          { Data := messages.getD [],
            Pagination :=
              { Page := request.Page, PageSize := request.Limit, Total := total,
                TotalPages := totalPages } })
        none, w, calls)

/-! ## internal/infrastructure/webhook: the delivery client -/

namespace webhook

/-- What the client reads of a `*resty.Response`: `StatusCode()` and
`String()`, the body. -/
structure RestyResponse where
  StatusCode : Int
  body : String
  deriving DecidableEq, Repr

/-- The outcome of `R().SetContext(ctx).SetBody(request).SetResult(&response).Post(url)`:
the pair `(resp, err)` and the value the transport has left in `response`. -/
structure PostOutcome where
  resp : RestyResponse
  err : Option GoError
  result : MessageResponse
  deriving DecidableEq, Repr

/-- The interface `restyRequester` as `sendMessageDirect` uses it. -/
structure RestyRequester (σ : Type) where
  Post : String → WebhookRequest → σ → PostOutcome × σ

/-- The part of `config.WebhookConfig` the client reads when sending. -/
structure WebhookConfig where
  URL : String
  deriving DecidableEq, Repr

/-- The state a guarded operation of `SendMessage` works on: the world and
the captured variable `response`, nil at first. -/
abbrev SendState (σ : Type) := σ × Option MessageResponse

/-- The interface `CircuitBreaker` of the package: `Execute` is handed the
guarded operation and decides whether to run it and what to return. -/
structure CircuitBreaker (σ : Type) where
  Execute : (SendState σ → Option GoError × SendState σ) → SendState σ →
    Option GoError × SendState σ

/-- The struct `client`; its field `client` is `requester` here, and a nil
`circuitBreaker` is `none`. -/
structure client (σ : Type) where
  requester : RestyRequester σ
  config : WebhookConfig
  circuitBreaker : Option (CircuitBreaker σ)

/-- The method `sendMessageDirect`: the pair `(*MessageResponse, error)` and
the next state of the world; 500 is `http.StatusInternalServerError`. -/
def client.sendMessageDirect {σ : Type} (w : client σ) (request : WebhookRequest) (s : σ) :
    (Option MessageResponse × Option GoError) × σ :=
  match w.requester.Post w.config.URL request s with
  | (out, s) =>
    match out.err with
    | some err =>
      ((none, some (WrapError err "WEBHOOK_ERROR" "Failed to send request" 500)), s)
    | none =>
      if out.resp.StatusCode < 200 ∨ out.resp.StatusCode ≥ 300 then
        ((none, some (NewErrorWithDetails "WEBHOOK_ERROR"
            ("Webhook request failed with status " ++ toString out.resp.StatusCode)
            out.resp.body 500)), s)
      else ((some out.result, none), s)

/-- The function literal that `SendMessage` hands to `Execute`: it calls
`sendMessageDirect`, stores the response in the captured variable and returns
the error. -/
def client.guardedSend {σ : Type} (w : client σ) (request : WebhookRequest) :
    SendState σ → Option GoError × SendState σ :=
  fun st =>
    match w.sendMessageDirect request st.1 with
    | ((response, err), s) => (err, (s, response))

/-- The method `SendMessage`; 503 is `http.StatusServiceUnavailable`. -/
def client.SendMessage {σ : Type} (w : client σ) (request : WebhookRequest) (s : σ) :
    (Option MessageResponse × Option GoError) × σ :=
  match w.circuitBreaker with
  | none => w.sendMessageDirect request s
  | some cb =>
    match cb.Execute (w.guardedSend request) (s, none) with
    | (some err, (s, _)) =>
      if err = .ErrCircuitOpen then
        ((none, some (NewErrorWithDetails "WEBHOOK_CIRCUIT_OPEN"
            "Webhook service is temporarily unavailable"
            "Circuit breaker is open due to repeated failures" 503)), s)
      else if err = .ErrCircuitHalfOpen then
        ((none, some (NewErrorWithDetails "WEBHOOK_CIRCUIT_HALF_OPEN"
            "Webhook service is testing recovery"
            "Circuit breaker is in half-open state" 503)), s)
      else ((none, some err), s)
    | (none, (s, response)) => ((response, none), s)

end webhook

/-! ## internal/application/services: the scheduler -/

structure SchedulerConfig where
  Interval : Int
  BatchSize : Int
  MaxRetries : Int
  RetryDelay : Int
  AutoStart : Bool
  deriving DecidableEq, Repr

/-- A `context.Context` as the scheduler sees it: whether it is cancelled. -/
structure Context where
  done : Bool
  deriving DecidableEq, Repr

/-- A `*time.Ticker`: its period and whether `Stop` was called on it. -/
structure Ticker where
  interval : Int
  stopped : Bool
  deriving DecidableEq, Repr

/-- The interface `MessageProcessor`: `ProcessMessages i` is the error that
the call number `i` (counted from 0) of a run returns. -/
structure MessageProcessor where
  ProcessMessages : Nat → Option GoError

/-- The struct `scheduler`. The field `ctx` stands for the pair `ctx`,
`cancel`: calling `cancel` sets `done`. The field `wg` is the counter of the
`sync.WaitGroup`, the number of background loops that have not returned. -/
structure scheduler where
  config : SchedulerConfig
  ticker : Option Ticker
  ctx : Option Context
  wg : Nat
  running : Bool
  mu : Bool
  processor : Option MessageProcessor

/-- The constructor `NewScheduler`. -/
def NewScheduler (config : SchedulerConfig) : scheduler :=
  { config := config, ticker := none, ctx := none, wg := 0, running := false, mu := false,
    processor := none }

/-- The method `SetMessageProcessor`; `none` when the lock is held. -/
def scheduler.SetMessageProcessor (s : scheduler) (processor : Option MessageProcessor) :
    Option scheduler :=
  if s.mu then none else some { s with processor := processor }

/-- What becomes of a call of `Start` or `Stop`: it returns `err`, it panics,
or it waits for the lock for ever; `s` is the scheduler it leaves behind. -/
inductive SchedulerOutcome where
  | returned (err : Option GoError) (s : scheduler)
  | panicked (reason : String) (s : scheduler)
  | blocked (s : scheduler)

def SchedulerOutcome.state : SchedulerOutcome → scheduler
  | .returned _ s => s
  | .panicked _ s => s
  | .blocked s => s

def SchedulerOutcome.err? : SchedulerOutcome → Option (Option GoError)
  | .returned err _ => some err
  | _ => none

/-- The statement `go s.run()` followed until the loop is at rest: `run`
returns, and with it `wg.Done()` runs, as soon as `s.ctx` is done; otherwise
it stays in its `select`. -/
def scheduler.spawnRun (s : scheduler) : scheduler :=
  match s.ctx with
  | some ctx => if ctx.done then { s with wg := s.wg - 1 } else s
  | none => s

/-- The method `Start`. The context made by `context.WithCancel(ctx)` is done
from the start when `ctx` is; `time.NewTicker` panics on a period that is not
positive. -/
def scheduler.Start (s : scheduler) (ctx : Context) : SchedulerOutcome :=
  if s.mu then .blocked s
  else
    let s := { s with mu := true }
    if s.running then .returned none { s with mu := false }
    else
      match s.processor with
      | none =>
        .returned (some (NewError "PROCESSOR_NOT_SET" "Message processor not set" 500))
          { s with mu := false }
      | some _ =>
        let s := { s with ctx := some { done := ctx.done } }
        if s.config.Interval ≤ 0 then
          .panicked "non-positive interval for NewTicker" { s with mu := false }
        else
          let s := { s with ticker := some { interval := s.config.Interval, stopped := false } }
          let s := { s with running := true }
          let s := { s with wg := s.wg + 1 }
          let s := s.spawnRun
          .returned none { s with mu := false }

/-- The method `Stop`: `s.cancel()`, `s.ticker.Stop()`, then `s.wg.Wait()`,
which returns when every background loop has returned. -/
def scheduler.Stop (s : scheduler) : SchedulerOutcome :=
  if s.mu then .blocked s
  else
    let s := { s with mu := true }
    if !s.running then .returned none { s with mu := false }
    else
      let s := { s with ctx := s.ctx.map fun _ => { done := true } }
      let s := { s with ticker := s.ticker.map fun (t : Ticker) => { t with stopped := true } }
      let s := { s with running := false }
      let s := { s with wg := 0 }
      .returned none { s with mu := false }

/-- The method `IsRunning`; `none` while the write lock is held. -/
def scheduler.IsRunning (s : scheduler) : Option Bool :=
  if s.mu then none else some s.running

/-- A control call on the scheduler. -/
inductive SchedulerOp where
  | Start (ctx : Context)
  | Stop
  deriving DecidableEq, Repr

/-- The scheduler after one control call. -/
def scheduler.step (s : scheduler) : SchedulerOp → scheduler
  | .Start ctx => (s.Start ctx).state
  | .Stop => s.Stop.state

/-- The scheduler after a sequence of control calls made one after the other. -/
def scheduler.steps (s : scheduler) (ops : List SchedulerOp) : scheduler :=
  ops.foldl scheduler.step s

/-- Whether a control call is a `Stop` or a `Start` whose context is not
cancelled. -/
def SchedulerOp.live : SchedulerOp → Bool
  | .Start ctx => !ctx.done
  | .Stop => true

/-- The lock is free and the number of background loops is 1 when the
scheduler is running and 0 when it is not. -/
def scheduler.atRest (s : scheduler) : Prop :=
  s.mu = false ∧ s.wg = if s.running then 1 else 0

/-- What one run of `processWithRetry` does, in order: a call of
`ProcessMessages` with its result, or a wait between two attempts, which ends
either with the retry delay (`false`) or with `s.ctx.Done()` (`true`). -/
inductive RetryEvent where
  | attempt (err : Option GoError)
  | wait (cancelled : Bool)
  deriving DecidableEq, Repr

/-- What becomes of one run of `processWithRetry`: it returns, it panics on
a nil processor, or the model has no steps left. -/
inductive RetryOutcome where
  | finished (events : List RetryEvent)
  | panicked (events : List RetryEvent)
  | unfinished
  deriving DecidableEq, Repr

def RetryOutcome.after (events : List RetryEvent) : RetryOutcome → RetryOutcome
  | .finished rest => .finished (events ++ rest)
  | .panicked rest => .panicked (events ++ rest)
  | .unfinished => .unfinished

/-- The loop of `processWithRetry` from the head test `attempt <= MaxRetries`
on; `calls` counts the calls of `ProcessMessages` made so far and `ctxDone i`
says whether the wait after call `i` ends with `s.ctx.Done()`. The first
argument bounds the number of iterations of the model. -/
def scheduler.retryLoop (s : scheduler) (ctxDone : Nat → Bool) :
    Nat → Int → Nat → RetryOutcome
  | 0, _, _ => .unfinished
  | fuel + 1, attempt, calls =>
    if attempt ≤ s.config.MaxRetries then
      match s.processor with
      | none => .panicked []
      | some processor =>
        match processor.ProcessMessages calls with
        | none => .finished [.attempt none]
        | some err =>
          if attempt < s.config.MaxRetries then
            if ctxDone calls then .finished [.attempt (some err), .wait true]
            else
              (scheduler.retryLoop s ctxDone fuel (wrapInt64 (attempt + 1)) (calls + 1)).after
                [.attempt (some err), .wait false]
          else
            (scheduler.retryLoop s ctxDone fuel (wrapInt64 (attempt + 1)) (calls + 1)).after
              [.attempt (some err)]
    else .finished []

/-- The method `processWithRetry`; it has no result value. -/
def scheduler.processWithRetry (s : scheduler) (ctxDone : Nat → Bool) (fuel : Nat) :
    RetryOutcome :=
  s.retryLoop ctxDone fuel 1 0

/-- The number of attempts stated for a run without cancellation: the
position of the first successful attempt among the first `n`, and `n` when
there is none. -/
def expectedAttempts (n : Nat) (outcomes : Nat → Option GoError) : Nat :=
  match (List.range n).find? fun i => (outcomes i).isNone with
  | some i => i + 1
  | none => n

/-- The events stated for a run: the expected attempts with a wait between
each two of them; when the wait after attempt `j + 1` observes the
cancellation, the run ends with that wait. -/
def expectedRetryEvents (n : Nat) (outcomes : Nat → Option GoError) (ctxDone : Nat → Bool) :
    List RetryEvent :=
  match (List.range (expectedAttempts n outcomes - 1)).find? fun i => ctxDone i with
  | some j =>
    List.intersperse (.wait false) ((List.range (j + 1)).map fun i => .attempt (outcomes i))
      ++ [.wait true]
  | none =>
    List.intersperse (.wait false)
      ((List.range (expectedAttempts n outcomes)).map fun i => .attempt (outcomes i))

/-! ## A sample batch for the worked examples -/

/-- Five fetched messages: the first, third and fifth are eligible, the
second is already Sent and the fourth has a content of 161 bytes. -/
def sampleMessages : List Message :=
  [ { ID := 1, To := "+905551111111", Content := "first", Status := messagestatus.Pending,
      CreatedAt := 10, SentAt := none, MessageID := none, FailureReason := none },
    { ID := 2, To := "+905552222222", Content := "second", Status := messagestatus.Sent,
      CreatedAt := 11, SentAt := some 12, MessageID := some "ext-0", FailureReason := none },
    { ID := 3, To := "+905553333333", Content := "third", Status := messagestatus.Pending,
      CreatedAt := 13, SentAt := none, MessageID := none, FailureReason := none },
    { ID := 4, To := "+905554444444", Content := String.mk (List.replicate 161 'x'),
      Status := messagestatus.Pending,
      CreatedAt := 14, SentAt := none, MessageID := none, FailureReason := none },
    { ID := 5, To := "+905555555555", Content := "fifth", Status := messagestatus.Pending,
      CreatedAt := 15, SentAt := none, MessageID := none, FailureReason := none } ]

/-- The store of the sample service refuses a message without recipient. -/
def sampleCreate (m : Message) (w : Nat) : Option GoError × Nat :=
  (if m.To = "" then some (.errorString "database error") else none, w + 1)

/-- A service over collaborators that count the calls they receive. The
fetch fails for a negative limit, is empty for limit 0 and gives
`sampleMessages` otherwise; the webhook rejects the recipient of the third
message; the status update of message 1 fails; every cache write fails; the
store refuses a message without recipient, lists no sent messages and counts
two of them. -/
def sampleService : message Nat where
  messageRepo :=
    { Create := sampleCreate,
      GetPendingMessages := fun limit w =>
        (if limit < 0 then .error (.errorString "db error")
         else if limit = 0 then .ok [] else .ok sampleMessages, w + 1),
      GetSentMessages := fun _ _ w => (.ok [], w + 1),
      UpdateStatus := fun id _ _ _ w =>
        (if id = 1 then some (.errorString "update error") else none, w + 1),
      GetTotalSentCount := fun w => (.ok 2, w + 1) }
  webhookService :=
    { SendMessage := fun request w =>
        (if request.To = "+905553333333" then .error (.errorString "webhook error")
         else .ok { Message := "Accepted", MessageID := "ext-" ++ request.Content }, w + 1) }
  cacheService := some { SetMessageCache := fun _ _ w => (some (.errorString "cache error"), w + 1) }


/-! ## Properties of the circuit breaker -/

theorem wrapInt64_eq (x : Int) (h : IsInt64 x) : wrapInt64 x = x := by
  unfold IsInt64 at h
  unfold wrapInt64
  omega

theorem New_of_threshold (config : Config) (h : 1 ≤ config.FailureThreshold) :
    (New config).config.FailureThreshold = config.FailureThreshold ∧
      (New config).state = StateClosed ∧ (New config).mu = false ∧
      (New config).failureCount = 0 := by
  have h0 : ¬ config.FailureThreshold ≤ 0 := by omega
  refine ⟨?_, rfl, rfl, rfl⟩
  simp only [New, h0, if_false]
  split <;> split <;> split <;> rfl

theorem Execute_closed_failure (cb : CircuitBreaker) (e : GoError) (now : Int)
    (hstate : cb.state = StateClosed) (hmu : cb.mu = false) :
    cb.Execute (some e) now =
      .returned (some e)
        (if wrapInt64 (cb.failureCount + 1) ≥ cb.config.FailureThreshold then
          { cb with
            state := StateOpen, successCount := 0, concurrentCalls := 0,
            failureCount := wrapInt64 (cb.failureCount + 1), lastFailureTime := now,
            totalCalls := wrapInt64 (cb.totalCalls + 1),
            totalFailures := wrapInt64 (cb.totalFailures + 1) }
        else
          { cb with
            failureCount := wrapInt64 (cb.failureCount + 1), lastFailureTime := now,
            totalCalls := wrapInt64 (cb.totalCalls + 1),
            totalFailures := wrapInt64 (cb.totalFailures + 1) }) 1 := by
  obtain ⟨config, state, mu, fc, lft, sc, cc, tc, tf, ts, tt⟩ := cb
  simp only at hstate hmu
  subst hstate hmu
  simp only [CircuitBreaker.Execute, CircuitBreaker.Lock, CircuitBreaker.Unlock,
    CircuitBreaker.executeClosed, CircuitBreaker.transitionToOpen]
  simp
  split <;> simp_all [StateClosed, StateOpen]

theorem Execute_closed_failure_counts (cb : CircuitBreaker) (e : GoError) (now : Int)
    (hstate : cb.state = StateClosed) (hmu : cb.mu = false)
    (h0 : 0 ≤ cb.failureCount) (hlt : cb.failureCount < cb.config.FailureThreshold)
    (hint : IsInt64 cb.config.FailureThreshold) :
    ∃ cb1, cb.Execute (some e) now = .returned (some e) cb1 1 ∧
      cb1.config = cb.config ∧ cb1.mu = false ∧ cb1.failureCount = cb.failureCount + 1 ∧
      cb1.state = if cb.failureCount + 1 ≥ cb.config.FailureThreshold
        then StateOpen else StateClosed := by
  have hwrap : wrapInt64 (cb.failureCount + 1) = cb.failureCount + 1 := by
    apply wrapInt64_eq
    unfold IsInt64 at hint ⊢
    omega
  have hstep := Execute_closed_failure cb e now hstate hmu
  rw [hwrap] at hstep
  refine ⟨_, hstep, ?_⟩
  by_cases hthr : cb.failureCount + 1 ≥ cb.config.FailureThreshold
  · rw [if_pos hthr, if_pos hthr]
    exact ⟨rfl, hmu, rfl, rfl⟩
  · rw [if_neg hthr, if_neg hthr]
    exact ⟨rfl, hmu, rfl, hstate⟩

theorem ExecuteAll_failures (calls : List (GoError × Int)) :
    ∀ cb : CircuitBreaker, cb.state = StateClosed → cb.mu = false →
      0 ≤ cb.failureCount → cb.failureCount < cb.config.FailureThreshold →
      cb.failureCount + calls.length ≤ cb.config.FailureThreshold →
      IsInt64 cb.config.FailureThreshold →
      ∃ cb', cb.ExecuteAll (calls.map fun c => (some c.1, c.2))
            = some (calls.map fun c => some c.1, cb') ∧
          cb'.config = cb.config ∧ cb'.mu = false ∧
          cb'.failureCount = cb.failureCount + calls.length ∧
          cb'.state = if cb.failureCount + calls.length = cb.config.FailureThreshold
            then StateOpen else StateClosed := by
  induction calls with
  | nil =>
    intro cb hstate hmu _ hlt _ _
    refine ⟨cb, rfl, rfl, hmu, by simp, ?_⟩
    have : ¬ (cb.failureCount + ((([] : List (GoError × Int)).length : Nat) : Int)
        = cb.config.FailureThreshold) := by
      simp only [List.length_nil, Nat.cast_zero]; omega
    rw [if_neg this]; exact hstate
  | cons c rest ih =>
    intro cb hstate hmu h0 hlt hle hint
    have hlen : (((c :: rest).length : Nat) : Int) = (rest.length : Int) + 1 := by
      simp
    rw [hlen] at hle
    obtain ⟨cb1, hstep, hcfg1, hmu1, hfc1, hst1⟩ :=
      Execute_closed_failure_counts cb c.1 c.2 hstate hmu h0 hlt hint
    by_cases hthr : cb.failureCount + 1 ≥ cb.config.FailureThreshold
    · have hrest : rest = [] := by
        apply List.eq_nil_of_length_eq_zero
        omega
      subst hrest
      rw [if_pos hthr] at hst1
      refine ⟨cb1, ?_, hcfg1, hmu1, ?_, ?_⟩
      · simp only [List.map, CircuitBreaker.ExecuteAll, hstep]
      · rw [hfc1]; simp
      · have : cb.failureCount + (([c].length : Nat) : Int) = cb.config.FailureThreshold := by
          simp only [List.length_singleton, Nat.cast_one]
          simp only [List.length_nil, Nat.cast_zero] at hle
          omega
        rw [if_pos this]; exact hst1
    · rw [if_neg hthr] at hst1
      obtain ⟨cb', hrun, hcfg, hmu', hfc, hst⟩ :=
        ih cb1 hst1 hmu1 (by rw [hfc1]; omega) (by rw [hfc1, hcfg1]; omega)
          (by rw [hfc1, hcfg1]; omega) (by rw [hcfg1]; exact hint)
      refine ⟨cb', ?_, hcfg.trans hcfg1, hmu', ?_, ?_⟩
      · simp only [List.map, CircuitBreaker.ExecuteAll, hstep]
        rw [hrun]
      · rw [hfc, hfc1, hlen]; omega
      · rw [hst, hlen, hfc1, hcfg1]
        have : (cb.failureCount + 1 + (rest.length : Int) = cb.config.FailureThreshold) ↔
            (cb.failureCount + ((rest.length : Int) + 1) = cb.config.FailureThreshold) := by
          constructor <;> intro h <;> omega
        simp only [this]

theorem Execute_halfOpen (cb : CircuitBreaker) (fn : Option GoError) (now : Int)
    (hstate : cb.state = StateHalfOpen) (hmu : cb.mu = false) :
    cb.Execute fn now = cb.executeHalfOpen fn := by
  obtain ⟨config, state, mu, fc, lft, sc, cc, tc, tf, ts, tt⟩ := cb
  simp only at hstate hmu
  subst hstate hmu
  simp [CircuitBreaker.Execute, CircuitBreaker.Lock, CircuitBreaker.Unlock,
    StateHalfOpen, StateClosed]

theorem Execute_closed (cb : CircuitBreaker) (fn : Option GoError) (now : Int)
    (hstate : cb.state = StateClosed) (hmu : cb.mu = false) :
    cb.Execute fn now = cb.executeClosed fn now := by
  obtain ⟨config, state, mu, fc, lft, sc, cc, tc, tf, ts, tt⟩ := cb
  simp only at hstate hmu
  subst hstate hmu
  simp [CircuitBreaker.Execute, CircuitBreaker.Lock, CircuitBreaker.Unlock]

theorem Execute_open (cb : CircuitBreaker) (fn : Option GoError) (now : Int)
    (hstate : cb.state = StateOpen) (hmu : cb.mu = false) :
    cb.Execute fn now = cb.executeOpen fn now := by
  obtain ⟨config, state, mu, fc, lft, sc, cc, tc, tf, ts, tt⟩ := cb
  simp only at hstate hmu
  subst hstate hmu
  simp [CircuitBreaker.Execute, CircuitBreaker.Lock, CircuitBreaker.Unlock,
    StateHalfOpen, StateClosed, StateOpen]

/-- C1: a breaker made by `New` with `FailureThreshold = n ≥ 1` answers each of
up to `n` consecutive failing `Execute` calls with the error of the guarded
operation; after exactly `n` such calls it is Open, after fewer it is still
Closed. -/
theorem closed_trips_at_failure_threshold (config : Config) (calls : List (GoError × Int))
    (hn : 1 ≤ config.FailureThreshold) (hint : IsInt64 config.FailureThreshold)
    (hlen : (calls.length : Int) ≤ config.FailureThreshold) :
    ∃ cb, (New config).ExecuteAll (calls.map fun c => (some c.1, c.2))
          = some (calls.map fun c => some c.1, cb) ∧
      cb.state = if (calls.length : Int) = config.FailureThreshold
        then StateOpen else StateClosed := by
  obtain ⟨hthr, hstate, hmu, hfc⟩ := New_of_threshold config hn
  obtain ⟨cb, hrun, _, _, _, hst⟩ :=
    ExecuteAll_failures calls (New config) hstate hmu (by rw [hfc]) (by rw [hfc, hthr]; omega)
      (by rw [hfc, hthr]; omega) (by rw [hthr]; exact hint)
  refine ⟨cb, hrun, ?_⟩
  rw [hst, hfc, hthr, zero_add]

theorem closed_trips_at_failure_threshold_witness :
    (∃ cb, (New ⟨3, 2, 100 * Millisecond, 1⟩).ExecuteAll
        [(some (.errorString "test error"), 5), (some (.errorString "test error"), 6),
         (some (.errorString "test error"), 7)]
        = some ([some (.errorString "test error"), some (.errorString "test error"),
            some (.errorString "test error")], cb) ∧
      cb.state = StateOpen) ∧
    (∃ cb, (New ⟨3, 2, 100 * Millisecond, 1⟩).ExecuteAll
        [(some (.errorString "test error"), 5), (some (.errorString "test error"), 6)]
        = some ([some (.errorString "test error"), some (.errorString "test error")], cb) ∧
      cb.state = StateClosed) :=
  ⟨closed_trips_at_failure_threshold ⟨3, 2, 100 * Millisecond, 1⟩
      [(.errorString "test error", 5), (.errorString "test error", 6),
       (.errorString "test error", 7)] (by decide) (by decide) (by decide),
   closed_trips_at_failure_threshold ⟨3, 2, 100 * Millisecond, 1⟩
      [(.errorString "test error", 5), (.errorString "test error", 6)]
      (by decide) (by decide) (by decide)⟩

theorem Execute_open_before_timeout (cb : CircuitBreaker) (fn : Option GoError) (now : Int)
    (hstate : cb.state = StateOpen) (hmu : cb.mu = false)
    (hearly : timeSince now cb.lastFailureTime < cb.config.Timeout) :
    cb.Execute fn now =
      .returned (some .ErrCircuitOpen)
        { cb with totalTimeouts := wrapInt64 (cb.totalTimeouts + 1) } 0 := by
  obtain ⟨config, state, mu, fc, lft, sc, cc, tc, tf, ts, tt⟩ := cb
  simp only at hstate hmu hearly
  subst hstate hmu
  have h : ¬ (timeSince now lft ≥ config.Timeout) := by omega
  simp [CircuitBreaker.Execute, CircuitBreaker.Lock, CircuitBreaker.Unlock,
    CircuitBreaker.executeOpen, StateOpen, StateClosed, StateHalfOpen, h]

/-- C2: an Open breaker that is called while the time since the last failure
is below the timeout returns `ErrCircuitOpen`, does not invoke the guarded
operation and stays Open; only the rejection total changes. -/
theorem open_rejects_before_timeout (cb : CircuitBreaker) (fn : Option GoError) (now : Int)
    (hstate : cb.state = StateOpen) (hmu : cb.mu = false)
    (hearly : timeSince now cb.lastFailureTime < cb.config.Timeout) :
    cb.Execute fn now =
        .returned (some .ErrCircuitOpen)
          { cb with totalTimeouts := wrapInt64 (cb.totalTimeouts + 1) } 0 ∧
      (cb.Execute fn now).invoked = 0 ∧ (cb.Execute fn now).cb.state = StateOpen := by
  have h := Execute_open_before_timeout cb fn now hstate hmu hearly
  refine ⟨h, ?_, ?_⟩
  · rw [h]; rfl
  · rw [h]; exact hstate

theorem open_rejects_before_timeout_witness :
    ({ New ⟨3, 2, 100 * Millisecond, 1⟩ with
        state := StateOpen, failureCount := 3, lastFailureTime := 7 } : CircuitBreaker).Execute
        none (6 + 100 * Millisecond)
      = .returned (some .ErrCircuitOpen)
          { New ⟨3, 2, 100 * Millisecond, 1⟩ with
            state := StateOpen, failureCount := 3, lastFailureTime := 7, totalTimeouts := 1 } 0 :=
  (open_rejects_before_timeout
    { New ⟨3, 2, 100 * Millisecond, 1⟩ with
      state := StateOpen, failureCount := 3, lastFailureTime := 7 }
    none (6 + 100 * Millisecond) rfl rfl (by decide)).1

/-- C3: the scenario of `TestCircuitBreaker_Execute_HalfOpenToClosed`. With
thresholds 1 and a timeout of 10 ms one failing call opens the breaker; the
call made 20 ms later, whose guarded operation would succeed, moves the
breaker to HalfOpen and then waits on the lock it holds itself: it does not
return, the guarded operation is not invoked, and the breaker is left
HalfOpen with the lock held. -/
theorem open_probe_in_test_never_returns :
    ∃ cb cb', (New ⟨1, 1, 10 * Millisecond, 1⟩).Execute (some (.errorString "test error")) 0
          = .returned (some (.errorString "test error")) cb 1 ∧
      cb.state = StateOpen ∧
      cb.Execute none (20 * Millisecond) = .blocked cb' 0 ∧
      cb'.state = StateHalfOpen ∧ cb'.mu = true ∧
      (New ⟨1, 1, 10 * Millisecond, 1⟩).ExecuteAll
        [(some (.errorString "test error"), 0), (none, 20 * Millisecond)] = none :=
  ⟨_, _, rfl, rfl, rfl, rfl, rfl, rfl⟩

/-- C4: a HalfOpen breaker that admits a call whose guarded operation fails
returns the error of the operation and is afterwards Open with success count
0 and in-flight probe count 0, whatever the success count was. -/
theorem halfOpen_failure_reopens (cb : CircuitBreaker) (e : GoError) (now : Int)
    (hstate : cb.state = StateHalfOpen) (hmu : cb.mu = false)
    (hroom : cb.concurrentCalls < cb.config.MaxConcurrentCalls) :
    ∃ cb', cb.Execute (some e) now = .returned (some e) cb' 1 ∧
      cb'.state = StateOpen ∧ cb'.successCount = 0 ∧ cb'.concurrentCalls = 0 := by
  rw [Execute_halfOpen cb (some e) now hstate hmu]
  obtain ⟨config, state, mu, fc, lft, sc, cc, tc, tf, ts, tt⟩ := cb
  simp only at hstate hmu hroom
  subst hstate hmu
  have h : ¬ (cc ≥ config.MaxConcurrentCalls) := by omega
  simp [CircuitBreaker.Lock, CircuitBreaker.Unlock, CircuitBreaker.executeHalfOpen,
    CircuitBreaker.transitionToOpen, StateOpen, StateHalfOpen, h]

theorem halfOpen_failure_reopens_witness :
    ∃ cb', ({ New ⟨3, 2, 100 * Millisecond, 1⟩ with
          state := StateHalfOpen, successCount := 1 } : CircuitBreaker).Execute
          (some (.errorString "probe failed")) 7
        = .returned (some (.errorString "probe failed")) cb' 1 ∧
      cb'.state = StateOpen ∧ cb'.successCount = 0 ∧ cb'.concurrentCalls = 0 :=
  halfOpen_failure_reopens
    { New ⟨3, 2, 100 * Millisecond, 1⟩ with state := StateHalfOpen, successCount := 1 }
    (.errorString "probe failed") 7 rfl rfl (by decide)

/-- C5: for every Open breaker whose timeout has elapsed, `Execute` does not
return: `executeOpen` moves the breaker to HalfOpen and calls
`executeHalfOpen` before its deferred unlock has run, and `executeHalfOpen`
waits for the same lock. The guarded operation is not invoked and the lock
stays held. -/
theorem open_after_timeout_blocks_on_own_lock (cb : CircuitBreaker) (fn : Option GoError)
    (now : Int) (hstate : cb.state = StateOpen) (hmu : cb.mu = false)
    (hlate : timeSince now cb.lastFailureTime ≥ cb.config.Timeout) :
    cb.Execute fn now =
      .blocked { cb with state := StateHalfOpen, successCount := 0, concurrentCalls := 0,
                         mu := true } 0 := by
  rw [Execute_open cb fn now hstate hmu]
  obtain ⟨config, state, mu, fc, lft, sc, cc, tc, tf, ts, tt⟩ := cb
  simp only at hstate hmu hlate
  subst hstate hmu
  simp [CircuitBreaker.Lock, CircuitBreaker.executeOpen, CircuitBreaker.executeHalfOpen,
    CircuitBreaker.transitionToHalfOpen, StateOpen, StateHalfOpen, hlate]

theorem open_after_timeout_blocks_on_own_lock_witness :
    ({ New ⟨3, 2, 100 * Millisecond, 1⟩ with
        state := StateOpen, failureCount := 3, lastFailureTime := 7 } : CircuitBreaker).Execute
        none (7 + 100 * Millisecond)
      = .blocked { New ⟨3, 2, 100 * Millisecond, 1⟩ with
          state := StateHalfOpen, failureCount := 3, lastFailureTime := 7, mu := true } 0 :=
  open_after_timeout_blocks_on_own_lock
    { New ⟨3, 2, 100 * Millisecond, 1⟩ with
      state := StateOpen, failureCount := 3, lastFailureTime := 7 }
    none (7 + 100 * Millisecond) rfl rfl (by decide)

/-- Once the lock is held and never released, every later `Execute` waits
for it as well. -/
theorem Execute_blocked_of_locked (cb : CircuitBreaker) (fn : Option GoError) (now : Int)
    (hmu : cb.mu = true) : cb.Execute fn now = .blocked cb 0 := by
  simp [CircuitBreaker.Execute, CircuitBreaker.Lock, hmu]

/-- In the three situations that do not pass from `executeOpen` into
`executeHalfOpen`, `Execute` returns the result of the guarded operation,
`ErrCircuitOpen` or `ErrCircuitHalfOpen`. -/
theorem Execute_returns_when_not_reopening (cb : CircuitBreaker) (fn : Option GoError)
    (now : Int) (hmu : cb.mu = false)
    (hstate : cb.state = StateClosed ∨ cb.state = StateHalfOpen ∨
      (cb.state = StateOpen ∧ timeSince now cb.lastFailureTime < cb.config.Timeout)) :
    ∃ err cb' n, cb.Execute fn now = .returned err cb' n ∧
      (err = fn ∨ err = some .ErrCircuitOpen ∨ err = some .ErrCircuitHalfOpen) := by
  rcases hstate with h | h | ⟨h, hearly⟩
  · rw [Execute_closed cb fn now h hmu]
    obtain ⟨config, state, mu, fc, lft, sc, cc, tc, tf, ts, tt⟩ := cb
    simp only at h hmu
    subst h hmu
    cases fn <;>
      simp [CircuitBreaker.Lock, CircuitBreaker.Unlock, CircuitBreaker.executeClosed]
  · rw [Execute_halfOpen cb fn now h hmu]
    obtain ⟨config, state, mu, fc, lft, sc, cc, tc, tf, ts, tt⟩ := cb
    simp only at h hmu
    subst h hmu
    by_cases hc : cc ≥ config.MaxConcurrentCalls
    · simp [CircuitBreaker.Lock, CircuitBreaker.Unlock, CircuitBreaker.executeHalfOpen, hc]
    · cases fn <;>
        simp [CircuitBreaker.Lock, CircuitBreaker.Unlock, CircuitBreaker.executeHalfOpen, hc]
  · exact ⟨_, _, _, Execute_open_before_timeout cb fn now h hmu hearly, Or.inr (Or.inl rfl)⟩

/-- C6: a HalfOpen breaker whose in-flight probe count has reached
`MaxConcurrentCalls` returns `ErrCircuitHalfOpen` without invoking the guarded
operation and is left as it was; below the limit the call is admitted, the
operation is invoked once and its result is returned. -/
theorem halfOpen_admission (cb : CircuitBreaker) (fn : Option GoError) (now : Int)
    (hstate : cb.state = StateHalfOpen) (hmu : cb.mu = false) :
    (cb.concurrentCalls ≥ cb.config.MaxConcurrentCalls →
        cb.Execute fn now = .returned (some .ErrCircuitHalfOpen) cb 0) ∧
      (cb.concurrentCalls < cb.config.MaxConcurrentCalls →
        ∃ cb', cb.Execute fn now = .returned fn cb' 1) := by
  rw [Execute_halfOpen cb fn now hstate hmu]
  obtain ⟨config, state, mu, fc, lft, sc, cc, tc, tf, ts, tt⟩ := cb
  simp only at hstate hmu
  subst hstate hmu
  constructor
  · intro hc
    simp [CircuitBreaker.Lock, CircuitBreaker.Unlock, CircuitBreaker.executeHalfOpen, hc]
  · intro hc
    simp only at hc
    have h : ¬ (cc ≥ config.MaxConcurrentCalls) := by omega
    cases fn <;>
      simp [CircuitBreaker.Lock, CircuitBreaker.Unlock, CircuitBreaker.executeHalfOpen, h]

theorem halfOpen_admission_witness :
    ({ New ⟨3, 2, 100 * Millisecond, 1⟩ with
        state := StateHalfOpen, concurrentCalls := 1 } : CircuitBreaker).Execute none 7
      = .returned (some .ErrCircuitHalfOpen)
          { New ⟨3, 2, 100 * Millisecond, 1⟩ with
            state := StateHalfOpen, concurrentCalls := 1 } 0 ∧
    ∃ cb', ({ New ⟨3, 2, 100 * Millisecond, 1⟩ with
        state := StateHalfOpen } : CircuitBreaker).Execute none 7 = .returned none cb' 1 :=
  ⟨(halfOpen_admission
      { New ⟨3, 2, 100 * Millisecond, 1⟩ with state := StateHalfOpen, concurrentCalls := 1 }
      none 7 rfl rfl).1 (by decide),
   (halfOpen_admission { New ⟨3, 2, 100 * Millisecond, 1⟩ with state := StateHalfOpen }
      none 7 rfl rfl).2 (by decide)⟩


/-! ## Properties of the batch processor -/

theorem sendSingleMessage_skip {σ : Type} (s : message σ) (m : Message) (w : σ)
    (h : m.IsValidForSending = false) : s.sendSingleMessage m w = (none, w, []) := by
  simp [message.sendSingleMessage, h]

theorem sendSingleMessage_calls {σ : Type} (s : message σ) (m : Message) (w : σ)
    (h : m.IsValidForSending = true) :
    sendRequests (s.sendSingleMessage m w).2.2 = [⟨m.To, m.Content⟩] ∧
      (sendResults (s.sendSingleMessage m w).2.2).length = 1 ∧
      statusUpdates (s.sendSingleMessage m w).2.2
        = List.zipWith updateFor [m] (sendResults (s.sendSingleMessage m w).2.2) := by
  unfold message.sendSingleMessage
  simp only [h, Bool.not_true, Bool.false_eq_true, if_false]
  repeat' split
  all_goals simp [sendRequests, sendResults, statusUpdates, updateFor]

theorem sendEach_cons {σ : Type} (s : message σ) (m : Message) (rest : List Message) (w : σ) :
    s.sendEach (m :: rest) w =
      ((s.sendEach rest (s.sendSingleMessage m w).2.1).1,
        (s.sendSingleMessage m w).2.2 ++ (s.sendEach rest (s.sendSingleMessage m w).2.1).2) :=
  rfl

theorem sendRequests_append (a b : List Call) :
    sendRequests (a ++ b) = sendRequests a ++ sendRequests b := by
  simp [sendRequests, List.filterMap_append]

theorem sendResults_append (a b : List Call) :
    sendResults (a ++ b) = sendResults a ++ sendResults b := by
  simp [sendResults, List.filterMap_append]

theorem statusUpdates_append (a b : List Call) :
    statusUpdates (a ++ b) = statusUpdates a ++ statusUpdates b := by
  simp [statusUpdates, List.filterMap_append]

theorem sendEach_calls {σ : Type} (s : message σ) (msgs : List Message) :
    ∀ w : σ,
      sendRequests (s.sendEach msgs w).2
          = (msgs.filter fun m => m.IsValidForSending).map (fun m => ⟨m.To, m.Content⟩) ∧
        (sendResults (s.sendEach msgs w).2).length
          = (msgs.filter fun m => m.IsValidForSending).length ∧
        statusUpdates (s.sendEach msgs w).2
          = List.zipWith updateFor (msgs.filter fun m => m.IsValidForSending)
              (sendResults (s.sendEach msgs w).2) := by
  induction msgs with
  | nil => intro w; simp [message.sendEach, sendRequests, sendResults, statusUpdates]
  | cons m rest ih =>
    intro w
    obtain ⟨ih1, ih2, ih3⟩ := ih (s.sendSingleMessage m w).2.1
    rw [sendEach_cons]
    cases hv : m.IsValidForSending with
    | false =>
      rw [sendSingleMessage_skip s m w hv]
      rw [sendSingleMessage_skip s m w hv] at ih1 ih2 ih3
      simp only [List.nil_append, List.filter_cons, hv, Bool.false_eq_true, if_false]
      exact ⟨ih1, ih2, ih3⟩
    | true =>
      obtain ⟨h1, h2, h3⟩ := sendSingleMessage_calls s m w hv
      simp only [List.filter_cons, hv, if_true, List.map_cons, List.length_cons]
      refine ⟨?_, ?_, ?_⟩
      · rw [sendRequests_append, h1, ih1]; rfl
      · rw [sendResults_append, List.length_append, h2, ih2]; omega
      · rw [statusUpdates_append, sendResults_append, h3, ih3]
        exact (List.zipWith_append updateFor [m] _ _ _ (by simpa using h2.symm)).symm

theorem SendPendingMessages_of_fetch_error {σ : Type} (s : message σ) (limit : Int) (w : σ)
    (err : GoError) (h : (s.messageRepo.GetPendingMessages limit w).1 = .error err) :
    s.SendPendingMessages limit w =
      (some err, (s.messageRepo.GetPendingMessages limit w).2,
        [.GetPendingMessages limit (.error err)]) := by
  unfold message.SendPendingMessages
  rcases hf : s.messageRepo.GetPendingMessages limit w with ⟨r, w1⟩
  rw [hf] at h
  simp only at h
  subst h
  rfl

theorem SendPendingMessages_of_fetch_ok {σ : Type} (s : message σ) (limit : Int) (w : σ)
    (msgs : List Message) (h : (s.messageRepo.GetPendingMessages limit w).1 = .ok msgs) :
    s.SendPendingMessages limit w =
      (none, (s.sendEach msgs (s.messageRepo.GetPendingMessages limit w).2).1,
        .GetPendingMessages limit (.ok msgs) ::
          (s.sendEach msgs (s.messageRepo.GetPendingMessages limit w).2).2) := by
  unfold message.SendPendingMessages
  rcases hf : s.messageRepo.GetPendingMessages limit w with ⟨r, w1⟩
  rw [hf] at h
  simp only at h
  subst h
  cases msgs with
  | nil => rfl
  | cons m rest => rfl

/-- C7: `SendPendingMessages` returns an error exactly when the initial
`GetPendingMessages` call failed; it then returns that very error and its only
call is the fetch (no send, no status update, no cache write). Whenever the
fetch succeeds it returns nil, whatever the collaborators answer for the
messages. -/
theorem SendPendingMessages_error_iff_fetch_failed {σ : Type} (s : message σ) (limit : Int)
    (w : σ) :
    ((s.SendPendingMessages limit w).1 ≠ none ↔
        ∃ err, (s.messageRepo.GetPendingMessages limit w).1 = .error err) ∧
      (∀ err, (s.messageRepo.GetPendingMessages limit w).1 = .error err →
        s.SendPendingMessages limit w =
          (some err, (s.messageRepo.GetPendingMessages limit w).2,
            [.GetPendingMessages limit (.error err)])) ∧
      (∀ msgs, (s.messageRepo.GetPendingMessages limit w).1 = .ok msgs →
        (s.SendPendingMessages limit w).1 = none) := by
  refine ⟨?_, fun err h => SendPendingMessages_of_fetch_error s limit w err h,
    fun msgs h => by rw [SendPendingMessages_of_fetch_ok s limit w msgs h]⟩
  rcases hf : (s.messageRepo.GetPendingMessages limit w).1 with err | msgs
  · rw [SendPendingMessages_of_fetch_error s limit w err hf]
    simp
  · rw [SendPendingMessages_of_fetch_ok s limit w msgs hf]
    simp

/-- C8: when the fetch gives `msgs`, the webhook is called once for each
eligible message, in fetch order, with the recipient and content of that
message, whatever the collaborators answer along the way. -/
theorem SendPendingMessages_sends_eligible_in_order {σ : Type} (s : message σ) (limit : Int)
    (w : σ) (msgs : List Message)
    (hfetch : (s.messageRepo.GetPendingMessages limit w).1 = .ok msgs) :
    sendRequests (s.SendPendingMessages limit w).2.2 =
      (msgs.filter fun m => m.IsValidForSending).map (fun m => ⟨m.To, m.Content⟩) := by
  rw [SendPendingMessages_of_fetch_ok s limit w msgs hfetch]
  have h := (sendEach_calls s msgs (s.messageRepo.GetPendingMessages limit w).2).1
  simpa [sendRequests] using h

/-- C9: when the fetch gives `msgs`, the batch issues one `UpdateStatus` call
per eligible message, in order: after a send that succeeded with external id
`e` it is `UpdateStatus(id, Sent, e, nil)`, after a send that failed with
`err` it is `UpdateStatus(id, Failed, nil, err.Error())`; no update ever asks
for the status Pending. -/
theorem SendPendingMessages_updates_follow_sends {σ : Type} (s : message σ) (limit : Int)
    (w : σ) (msgs : List Message)
    (hfetch : (s.messageRepo.GetPendingMessages limit w).1 = .ok msgs) :
    (sendResults (s.SendPendingMessages limit w).2.2).length
        = (msgs.filter fun m => m.IsValidForSending).length ∧
      statusUpdates (s.SendPendingMessages limit w).2.2
        = List.zipWith updateFor (msgs.filter fun m => m.IsValidForSending)
            (sendResults (s.SendPendingMessages limit w).2.2) ∧
      ∀ u ∈ statusUpdates (s.SendPendingMessages limit w).2.2,
        u.2.1 ≠ messagestatus.Pending := by
  rw [SendPendingMessages_of_fetch_ok s limit w msgs hfetch]
  obtain ⟨_, h2, h3⟩ := sendEach_calls s msgs (s.messageRepo.GetPendingMessages limit w).2
  have e1 : ∀ (c : Call) (cs : List Call),
      sendResults (Call.GetPendingMessages limit (.ok msgs) :: cs) = sendResults cs := by
    intro c cs; simp [sendResults]
  have e2 : ∀ (cs : List Call),
      statusUpdates (Call.GetPendingMessages limit (.ok msgs) :: cs) = statusUpdates cs := by
    intro cs; simp [statusUpdates]
  simp only [e1 (.GetPendingMessages limit (.ok msgs)), e2]
  refine ⟨h2, h3, ?_⟩
  intro u hu
  rw [h3, ← List.map_uncurry_zip_eq_zipWith] at hu
  obtain ⟨⟨m, r⟩, _, rfl⟩ := List.mem_map.1 hu
  cases r <;> simp [updateFor, messagestatus.Sent, messagestatus.Failed, messagestatus.Pending]

/-- C10: a fetched message that is not eligible (status other than Pending, or
content longer than 160 bytes) is skipped: `sendSingleMessage` returns nil,
leaves the world as it was and calls no collaborator, and the batch loop goes
on with the remaining messages. An empty fetch result ends the batch with nil
after the fetch alone. -/
theorem ineligible_and_empty_are_no_ops {σ : Type} (s : message σ) (w : σ) :
    (∀ m : Message, (m.Status ≠ messagestatus.Pending ∨ 160 < m.Content.utf8ByteSize) →
        s.sendSingleMessage m w = (none, w, []) ∧
        ∀ rest, s.sendEach (m :: rest) w = s.sendEach rest w) ∧
      (∀ limit, (s.messageRepo.GetPendingMessages limit w).1 = .ok [] →
        s.SendPendingMessages limit w =
          (none, (s.messageRepo.GetPendingMessages limit w).2,
            [.GetPendingMessages limit (.ok [])])) := by
  constructor
  · intro m hm
    have hv : m.IsValidForSending = false := by
      unfold Message.IsValidForSending
      rcases hm with h | h
      · simp [h]
      · simp; intro _; omega
    refine ⟨sendSingleMessage_skip s m w hv, fun rest => ?_⟩
    rw [sendEach_cons, sendSingleMessage_skip s m w hv]
    rfl
  · intro limit h
    rw [SendPendingMessages_of_fetch_ok s limit w [] h]
    rfl

theorem SendPendingMessages_error_iff_fetch_failed_witness :
    sampleService.SendPendingMessages (-1) 0 =
        (some (.errorString "db error"), 1,
          [.GetPendingMessages (-1) (.error (.errorString "db error"))]) ∧
      (sampleService.SendPendingMessages 5 0).1 = none :=
  ⟨(SendPendingMessages_error_iff_fetch_failed sampleService (-1) 0).2.1
      (.errorString "db error") rfl,
   (SendPendingMessages_error_iff_fetch_failed sampleService 5 0).2.2 sampleMessages rfl⟩

set_option maxRecDepth 8000 in
theorem SendPendingMessages_sends_eligible_in_order_witness :
    sendRequests (sampleService.SendPendingMessages 5 0).2.2 =
      [⟨"+905551111111", "first"⟩, ⟨"+905553333333", "third"⟩, ⟨"+905555555555", "fifth"⟩] :=
  (SendPendingMessages_sends_eligible_in_order sampleService 5 0 sampleMessages rfl).trans
    (by decide)

set_option maxRecDepth 8000 in
theorem SendPendingMessages_updates_follow_sends_witness :
    statusUpdates (sampleService.SendPendingMessages 5 0).2.2 =
      [(1, messagestatus.Sent, some "ext-first", none),
       (3, messagestatus.Failed, none, some "webhook error"),
       (5, messagestatus.Sent, some "ext-fifth", none)] :=
  (SendPendingMessages_updates_follow_sends sampleService 5 0 sampleMessages rfl).2.1.trans
    (by decide)

set_option maxRecDepth 8000 in
theorem ineligible_and_empty_are_no_ops_witness :
    sampleService.sendSingleMessage
        { ID := 2, To := "+905552222222", Content := "second", Status := messagestatus.Sent,
          CreatedAt := 11, SentAt := some 12, MessageID := some "ext-0",
          FailureReason := none } 0 = (none, 0, []) ∧
      sampleService.sendSingleMessage
        { ID := 4, To := "+905554444444", Content := String.mk (List.replicate 161 'x'),
          Status := messagestatus.Pending, CreatedAt := 14, SentAt := none, MessageID := none,
          FailureReason := none } 0 = (none, 0, []) ∧
      sampleService.SendPendingMessages 0 0 = (none, 1, [.GetPendingMessages 0 (.ok [])]) :=
  ⟨((ineligible_and_empty_are_no_ops sampleService 0).1 _ (Or.inl (by decide))).1,
   ((ineligible_and_empty_are_no_ops sampleService 0).1 _ (Or.inr (by decide))).1,
   (ineligible_and_empty_are_no_ops sampleService 0).2 0 rfl⟩


/-! ## Properties of the message entity and of message creation -/

/-- C19: `IsValidForSending` holds exactly for a message whose status is
Pending and whose content has at most 160 bytes: 160 bytes are valid, 161 are
not, and a Sent or Failed message is never valid. -/
theorem IsValidForSending_iff (m : Message) :
    (m.IsValidForSending = true ↔
        m.Status = messagestatus.Pending ∧ m.Content.utf8ByteSize ≤ 160) ∧
      (m.Status = messagestatus.Pending ∧ m.Content.utf8ByteSize = 160 →
        m.IsValidForSending = true) ∧
      (m.Content.utf8ByteSize = 161 → m.IsValidForSending = false) ∧
      (m.Status = messagestatus.Sent ∨ m.Status = messagestatus.Failed →
        m.IsValidForSending = false) := by
  have hiff : m.IsValidForSending = true ↔
      m.Status = messagestatus.Pending ∧ m.Content.utf8ByteSize ≤ 160 := by
    simp [Message.IsValidForSending]
  refine ⟨hiff, ?_, ?_, ?_⟩
  · rintro ⟨h1, h2⟩
    exact hiff.2 ⟨h1, by omega⟩
  · intro h
    cases hv : m.IsValidForSending with
    | false => rfl
    | true => have := (hiff.1 hv).2; omega
  · intro h
    cases hv : m.IsValidForSending with
    | false => rfl
    | true =>
      have h1 := (hiff.1 hv).1
      rcases h with h | h <;> rw [h1] at h <;> revert h <;> decide

set_option maxRecDepth 8000 in
theorem IsValidForSending_iff_witness :
    Message.IsValidForSending
        { ID := 1, To := "+905551111111", Content := String.mk (List.replicate 160 'x'),
          Status := messagestatus.Pending, CreatedAt := 0, SentAt := none, MessageID := none,
          FailureReason := none } = true ∧
      Message.IsValidForSending
        { ID := 1, To := "+905551111111", Content := String.mk (List.replicate 161 'x'),
          Status := messagestatus.Pending, CreatedAt := 0, SentAt := none, MessageID := none,
          FailureReason := none } = false ∧
      Message.IsValidForSending
        { ID := 1, To := "+905551111111", Content := "Valid message",
          Status := messagestatus.Sent, CreatedAt := 0, SentAt := none, MessageID := none,
          FailureReason := none } = false :=
  ⟨(IsValidForSending_iff _).2.1 ⟨rfl, by decide⟩,
   (IsValidForSending_iff _).2.2.1 (by decide),
   (IsValidForSending_iff _).2.2.2 (Or.inl rfl)⟩

/-- C11, as the code has it: `MarkAsSent` sets the status to Sent and
`MarkAsFailed` sets it to Failed whatever the status was before, and neither
touches the identity, recipient, content or creation time. A Pending message
so moves to Sent or to Failed; a Sent message stays Sent under `MarkAsSent`
and a Failed message stays Failed under `MarkAsFailed`. -/
theorem MarkAs_sets_status (m : Message) (messageID reason : String) (now : Int) :
    (m.MarkAsSent messageID now).Status = messagestatus.Sent ∧
      (m.MarkAsFailed reason).Status = messagestatus.Failed ∧
      (m.Status = messagestatus.Sent → (m.MarkAsSent messageID now).Status = m.Status) ∧
      (m.Status = messagestatus.Failed → (m.MarkAsFailed reason).Status = m.Status) ∧
      ((m.MarkAsSent messageID now).ID = m.ID ∧ (m.MarkAsSent messageID now).To = m.To ∧
        (m.MarkAsSent messageID now).Content = m.Content ∧
        (m.MarkAsSent messageID now).CreatedAt = m.CreatedAt) ∧
      ((m.MarkAsFailed reason).ID = m.ID ∧ (m.MarkAsFailed reason).To = m.To ∧
        (m.MarkAsFailed reason).Content = m.Content ∧
        (m.MarkAsFailed reason).CreatedAt = m.CreatedAt) :=
  ⟨rfl, rfl, fun h => h.symm ▸ rfl, fun h => h.symm ▸ rfl, ⟨rfl, rfl, rfl, rfl⟩,
    ⟨rfl, rfl, rfl, rfl⟩⟩

theorem MarkAs_sets_status_witness :
    (Message.MarkAsSent
        { ID := 1, To := "+905551111111", Content := "Test message",
          Status := messagestatus.Sent, CreatedAt := 0, SentAt := some 1,
          MessageID := some "a", FailureReason := none } "b" 2).Status = messagestatus.Sent ∧
      (Message.MarkAsFailed
        { ID := 1, To := "+905551111111", Content := "Test message",
          Status := messagestatus.Failed, CreatedAt := 0, SentAt := none,
          MessageID := none, FailureReason := some "x" } "y").Status = messagestatus.Failed :=
  ⟨((MarkAs_sets_status _ "b" "y" 2).2.2.1 rfl).trans rfl,
   ((MarkAs_sets_status _ "b" "y" 2).2.2.2.1 rfl).trans rfl⟩

/-- The statement of C11 fails: `MarkAsSent` moves a Failed message to Sent
and `MarkAsFailed` moves a Sent message to Failed. -/
theorem terminal_status_not_kept :
    ¬ (∀ (m : Message) (messageID reason : String) (now : Int),
        (m.Status = messagestatus.Sent ∨ m.Status = messagestatus.Failed) →
          (m.MarkAsSent messageID now).Status = m.Status ∧
            (m.MarkAsFailed reason).Status = m.Status) := by
  intro h
  have h1 := (h ⟨1, "+905551111111", "Test message", messagestatus.Failed, 0, none, none,
    some "Webhook timeout"⟩ "test-message-id" "again" 5 (Or.inr rfl)).1
  revert h1
  decide

/-- C12: a request whose content has more than 160 bytes gets a nil message
and `ErrInvalidMessageContent`, and the store's `Create` is not called; a
request with at most 160 bytes whose `Create` succeeds gets a message with
the recipient and content of the request, status Pending, and no sent time,
external id or failure reason, after one `Create` call for that message. -/
theorem CreateMessage_validates_content {σ : Type} (s : message σ) (request : MessageRequest)
    (id : UUID) (now : Int) (w : σ) :
    (160 < request.Content.utf8ByteSize →
        s.CreateMessage request id now w = ((none, some ErrInvalidMessageContent), w, [])) ∧
      (request.Content.utf8ByteSize ≤ 160 →
        (s.messageRepo.Create (NewMessage request.To request.Content id now) w).1 = none →
        ∃ m, s.CreateMessage request id now w =
            ((some m, none), (s.messageRepo.Create m w).2, [.Create m none]) ∧
          m.To = request.To ∧ m.Content = request.Content ∧
          m.Status = messagestatus.Pending ∧ m.SentAt = none ∧ m.MessageID = none ∧
          m.FailureReason = none) := by
  constructor
  · intro h
    simp [message.CreateMessage, h]
  · intro h hc
    have h160 : ¬ (request.Content.utf8ByteSize > 160) := by omega
    refine ⟨NewMessage request.To request.Content id now, ?_, rfl, rfl, rfl, rfl, rfl, rfl⟩
    unfold message.CreateMessage
    rw [if_neg h160]
    rcases hr : s.messageRepo.Create (NewMessage request.To request.Content id now) w with ⟨r, w1⟩
    rw [hr] at hc
    simp only at hc
    subst hc
    simp only [hr]

set_option maxRecDepth 8000 in
theorem CreateMessage_validates_content_witness :
    sampleService.CreateMessage ⟨"+905551111111", String.mk (List.replicate 161 'x')⟩ 7 100 0
        = ((none, some ErrInvalidMessageContent), 0, []) ∧
      ∃ m, sampleService.CreateMessage ⟨"+905551111111", "Test message"⟩ 7 100 0 =
          ((some m, none), (sampleService.messageRepo.Create m 0).2, [.Create m none]) ∧
        m.To = "+905551111111" ∧ m.Content = "Test message" ∧
        m.Status = messagestatus.Pending ∧ m.SentAt = none ∧ m.MessageID = none ∧
        m.FailureReason = none :=
  ⟨(CreateMessage_validates_content sampleService
      ⟨"+905551111111", String.mk (List.replicate 161 'x')⟩ 7 100 0).1 (by decide),
   (CreateMessage_validates_content sampleService
      ⟨"+905551111111", "Test message"⟩ 7 100 0).2 (by decide) rfl⟩

/-! ## Properties of the breaker's state reading -/

/-- C18: the scenario of `TestCircuitBreaker_Execute_OpenToHalfOpen`. With
thresholds 1 and a timeout of 10 ms one failing call opens the breaker.
`GetState` reads no clock: with no `Execute` in between it returns Open,
not HalfOpen, however long after the failure it is called. -/
theorem GetState_after_timeout_is_still_open :
    ∃ cb, (New ⟨1, 1, 10 * Millisecond, 1⟩).Execute (some (.errorString "test error")) 0
          = .returned (some (.errorString "test error")) cb 1 ∧
      cb.lastFailureTime = 0 ∧ cb.config.Timeout = 10 * Millisecond ∧
      cb.GetState = some StateOpen ∧ cb.GetState ≠ some StateHalfOpen :=
  ⟨_, rfl, rfl, rfl, rfl, by decide⟩

/-! ## Properties of the scheduler -/

/-- C15: `Start` on a scheduler that is not running and has no processor
returns an error with code `PROCESSOR_NOT_SET` and leaves the scheduler as it
was: not running, with the same timer, context and number of background
loops. -/
theorem Start_without_processor (s : scheduler) (ctx : Context) (hmu : s.mu = false)
    (hrun : s.running = false) (hproc : s.processor.isNone = true) :
    s.Start ctx
        = .returned (some (NewError "PROCESSOR_NOT_SET" "Message processor not set" 500)) s ∧
      (NewError "PROCESSOR_NOT_SET" "Message processor not set" 500).code?
        = some "PROCESSOR_NOT_SET" ∧
      (s.Start ctx).state.IsRunning = some false ∧
      (s.Start ctx).state.ticker = s.ticker ∧ (s.Start ctx).state.ctx = s.ctx ∧
      (s.Start ctx).state.wg = s.wg := by
  obtain ⟨config, ticker, c, wg, running, mu, processor⟩ := s
  simp only at hmu hrun hproc
  subst hmu hrun
  cases processor with
  | some p => simp at hproc
  | none =>
    refine ⟨rfl, rfl, rfl, rfl, rfl, rfl⟩

theorem Start_without_processor_witness :
    (NewScheduler ⟨10 * Millisecond, 2, 1, Millisecond, false⟩).Start ⟨false⟩
      = .returned (some (NewError "PROCESSOR_NOT_SET" "Message processor not set" 500))
          (NewScheduler ⟨10 * Millisecond, 2, 1, Millisecond, false⟩) :=
  (Start_without_processor (NewScheduler ⟨10 * Millisecond, 2, 1, Millisecond, false⟩) ⟨false⟩
    rfl rfl rfl).1

theorem Start_when_running (s : scheduler) (ctx : Context) (hmu : s.mu = false)
    (hrun : s.running = true) : s.Start ctx = .returned none s := by
  obtain ⟨config, ticker, c, wg, running, mu, processor⟩ := s
  simp only at hmu hrun
  subst hmu hrun
  rfl

theorem Stop_when_stopped (s : scheduler) (hmu : s.mu = false) (hrun : s.running = false) :
    s.Stop = .returned none s := by
  obtain ⟨config, ticker, c, wg, running, mu, processor⟩ := s
  simp only at hmu hrun
  subst hmu hrun
  rfl

theorem Start_keeps_atRest (s : scheduler) (ctx : Context) (hs : s.atRest)
    (hlive : ctx.done = false) : (s.Start ctx).state.atRest := by
  obtain ⟨config, ticker, c, wg, running, mu, processor⟩ := s
  obtain ⟨hmu, hwg⟩ := hs
  simp only at hmu hwg
  subst hmu
  cases running with
  | true => exact ⟨rfl, hwg⟩
  | false =>
    simp only [Bool.false_eq_true, if_false] at hwg
    subst hwg
    cases processor with
    | none => exact ⟨rfl, rfl⟩
    | some p =>
      by_cases hi : config.Interval ≤ 0
      · simp [scheduler.Start, hi, SchedulerOutcome.state, scheduler.atRest]
      · simp [scheduler.Start, hi, SchedulerOutcome.state, scheduler.atRest,
          scheduler.spawnRun, hlive]

theorem Stop_keeps_atRest (s : scheduler) (hs : s.atRest) : s.Stop.state.atRest := by
  obtain ⟨config, ticker, c, wg, running, mu, processor⟩ := s
  obtain ⟨hmu, hwg⟩ := hs
  simp only at hmu hwg
  subst hmu
  cases running with
  | true => exact ⟨rfl, rfl⟩
  | false => exact ⟨rfl, hwg⟩

theorem steps_keep_atRest (ops : List SchedulerOp) :
    ∀ s : scheduler, s.atRest → (∀ op ∈ ops, op.live = true) → (s.steps ops).atRest := by
  induction ops with
  | nil => intro s hs _; exact hs
  | cons op rest ih =>
    intro s hs hlive
    have hstep : (s.step op).atRest := by
      cases op with
      | Start ctx =>
        have hl := hlive (.Start ctx) (List.mem_cons_self _ _)
        exact Start_keeps_atRest s ctx hs (by simpa [SchedulerOp.live] using hl)
      | Stop => exact Stop_keeps_atRest s hs
    exact ih (s.step op) hstep fun o hmem => hlive o (List.mem_cons_of_mem _ hmem)

/-- C16, as the code has it: `Start` on a running scheduler and `Stop` on a
stopped one return nil and leave the scheduler as it was (running flag,
timer, context with its cancel function, number of background loops). Over
every sequence of `Start` and `Stop` calls from a new scheduler, with or
without processor, in which no context handed to `Start` is cancelled, the
number of background loops is 1 when `IsRunning` is true and 0 when it is
false. -/
theorem start_stop_idempotent_single_loop (config : SchedulerConfig)
    (processor : Option MessageProcessor) (ops : List SchedulerOp)
    (hlive : ∀ op ∈ ops, op.live = true) :
    (∀ (s : scheduler) (ctx : Context), s.mu = false → s.running = true →
        s.Start ctx = .returned none s) ∧
      (∀ s : scheduler, s.mu = false → s.running = false → s.Stop = .returned none s) ∧
      (({ NewScheduler config with processor := processor } : scheduler).steps ops).IsRunning
        = some (({ NewScheduler config with processor := processor } : scheduler).steps
            ops).running ∧
      (({ NewScheduler config with processor := processor } : scheduler).steps ops).wg
        = if (({ NewScheduler config with processor := processor } : scheduler).steps
            ops).running then 1 else 0 := by
  have h := steps_keep_atRest ops { NewScheduler config with processor := processor }
    ⟨rfl, rfl⟩ hlive
  refine ⟨Start_when_running, Stop_when_stopped, ?_, h.2⟩
  simp [scheduler.IsRunning, h.1]

theorem start_stop_idempotent_single_loop_witness :
    (({ NewScheduler ⟨10 * Millisecond, 2, 1, Millisecond, false⟩ with
          processor := some ⟨fun _ => none⟩ } : scheduler).steps
        [.Start ⟨false⟩, .Start ⟨false⟩, .Stop, .Stop, .Start ⟨false⟩]).wg = 1 ∧
      (({ NewScheduler ⟨10 * Millisecond, 2, 1, Millisecond, false⟩ with
          processor := some ⟨fun _ => none⟩ } : scheduler).steps
        [.Start ⟨false⟩, .Start ⟨false⟩, .Stop, .Stop]).wg = 0 :=
  ⟨(start_stop_idempotent_single_loop ⟨10 * Millisecond, 2, 1, Millisecond, false⟩
      (some ⟨fun _ => none⟩) [.Start ⟨false⟩, .Start ⟨false⟩, .Stop, .Stop, .Start ⟨false⟩]
      (by decide)).2.2.2.trans rfl,
   (start_stop_idempotent_single_loop ⟨10 * Millisecond, 2, 1, Millisecond, false⟩
      (some ⟨fun _ => none⟩) [.Start ⟨false⟩, .Start ⟨false⟩, .Stop, .Stop]
      (by decide)).2.2.2.trans rfl⟩

/-- The statement of C16 fails for a `Start` that is handed a cancelled
context: the call returns nil and `IsRunning` is true, but the background
loop returns at its first `select`, so no loop is left. -/
theorem cancelled_context_leaves_no_loop :
    ∃ s, ({ NewScheduler ⟨10 * Millisecond, 2, 1, Millisecond, false⟩ with
          processor := some ⟨fun _ => none⟩ } : scheduler).Start ⟨true⟩ = .returned none s ∧
      s.IsRunning = some true ∧ s.wg = 0 ∧ s.wg ≠ (if s.running then 1 else 0) :=
  ⟨_, rfl, rfl, rfl, by decide⟩

theorem expectedAttempts_succ (n : Nat) (f : Nat → Option GoError) :
    expectedAttempts (n + 1) f =
      if (f 0).isNone then 1 else 1 + expectedAttempts n (fun i => f (i + 1)) := by
  unfold expectedAttempts
  rw [List.range_succ_eq_map, List.find?_cons]
  cases h0 : (f 0).isNone with
  | true => simp
  | false =>
    simp only [List.find?_map, Bool.false_eq_true, if_false]
    have hcomp : ((fun i => (f i).isNone) ∘ Nat.succ) = fun i => (f (i + 1)).isNone := rfl
    rw [hcomp]
    cases List.find? (fun i => (f (i + 1)).isNone) (List.range n) with
    | none => simp; omega
    | some i => simp; omega

theorem expectedAttempts_pos (n : Nat) (f : Nat → Option GoError) (h : 0 < n) :
    0 < expectedAttempts n f := by
  obtain ⟨m, rfl⟩ : ∃ m, n = m + 1 := ⟨n - 1, by omega⟩
  rw [expectedAttempts_succ]
  split <;> omega

theorem intersperse_map_range_succ (sep : RetryEvent) (g : Nat → RetryEvent) (m : Nat) :
    List.intersperse sep ((List.range (m + 2)).map g) =
      g 0 :: sep :: List.intersperse sep ((List.range (m + 1)).map fun i => g (i + 1)) := by
  rw [List.range_succ_eq_map (m + 1), List.map_cons, List.map_map,
    List.range_succ_eq_map m]
  simp only [List.map_cons, List.intersperse_cons₂]
  rfl

theorem expectedRetryEvents_zero (f : Nat → Option GoError) (D : Nat → Bool) :
    expectedRetryEvents 0 f D = [] := by
  simp [expectedRetryEvents, expectedAttempts]

theorem expectedRetryEvents_success (n : Nat) (f : Nat → Option GoError) (D : Nat → Bool)
    (h0 : f 0 = none) : expectedRetryEvents (n + 1) f D = [.attempt none] := by
  have hk : expectedAttempts (n + 1) f = 1 := by
    rw [expectedAttempts_succ, h0]; rfl
  simp [expectedRetryEvents, hk, h0, List.range_succ_eq_map]

theorem expectedRetryEvents_last (f : Nat → Option GoError) (D : Nat → Bool) (e : GoError)
    (h0 : f 0 = some e) : expectedRetryEvents 1 f D = [.attempt (some e)] := by
  have hk : expectedAttempts 1 f = 1 := by
    rw [expectedAttempts_succ, h0]; rfl
  simp [expectedRetryEvents, hk, h0, List.range_succ_eq_map]

theorem expectedRetryEvents_cancel (n : Nat) (f : Nat → Option GoError) (D : Nat → Bool)
    (e : GoError) (h0 : f 0 = some e) (hd : D 0 = true) :
    expectedRetryEvents (n + 2) f D = [.attempt (some e), .wait true] := by
  have hpos := expectedAttempts_pos (n + 1) (fun i => f (i + 1)) (by omega)
  obtain ⟨m, hm⟩ : ∃ m, expectedAttempts (n + 1) (fun i => f (i + 1)) = m + 1 :=
    ⟨_, (Nat.succ_pred_eq_of_pos hpos).symm⟩
  have hk : expectedAttempts (n + 2) f = 1 + (m + 1) := by
    rw [expectedAttempts_succ, h0, ← hm]; rfl
  unfold expectedRetryEvents
  rw [hk, show 1 + (m + 1) - 1 = m + 1 by omega, List.range_succ_eq_map m, List.find?_cons, hd]
  simp [h0, List.range_succ_eq_map]

theorem expectedRetryEvents_retry (n : Nat) (f : Nat → Option GoError) (D : Nat → Bool)
    (e : GoError) (h0 : f 0 = some e) (hd : D 0 = false) :
    expectedRetryEvents (n + 2) f D =
      .attempt (some e) :: .wait false ::
        expectedRetryEvents (n + 1) (fun i => f (i + 1)) (fun i => D (i + 1)) := by
  have hpos := expectedAttempts_pos (n + 1) (fun i => f (i + 1)) (by omega)
  obtain ⟨m, hm⟩ : ∃ m, expectedAttempts (n + 1) (fun i => f (i + 1)) = m + 1 :=
    ⟨_, (Nat.succ_pred_eq_of_pos hpos).symm⟩
  have hk : expectedAttempts (n + 2) f = 1 + (m + 1) := by
    rw [expectedAttempts_succ, h0, ← hm]; rfl
  unfold expectedRetryEvents
  rw [hk, hm, show 1 + (m + 1) - 1 = m + 1 by omega, show m + 1 - 1 = m by omega,
    List.range_succ_eq_map m, List.find?_cons, hd]
  simp only [List.find?_map]
  have hcomp : ((fun i => D i) ∘ Nat.succ) = fun i => D (i + 1) := rfl
  rw [hcomp]
  cases List.find? (fun i => D (i + 1)) (List.range m) with
  | none =>
    simp only [Option.map_none']
    rw [show 1 + (m + 1) = m + 2 by omega, intersperse_map_range_succ, h0,
      List.range_succ_eq_map m]
  | some j =>
    simp only [Option.map_some']
    rw [show Nat.succ j + 1 = j + 2 by omega, intersperse_map_range_succ, h0]
    rfl

theorem retryLoop_eq_expected (s : scheduler) (p : MessageProcessor)
    (hp : s.processor = some p) (ctxDone : Nat → Bool)
    (hfit : s.config.MaxRetries < 9223372036854775807) :
    ∀ (r fuel : Nat) (a : Int) (c : Nat), r < fuel → 1 ≤ a →
      a + r = s.config.MaxRetries + 1 →
      s.retryLoop ctxDone fuel a c =
        .finished (expectedRetryEvents r (fun i => p.ProcessMessages (c + i))
          (fun i => ctxDone (c + i))) := by
  intro r
  induction r with
  | zero =>
    intro fuel a c hfuel ha hsum
    obtain ⟨f, rfl⟩ : ∃ f, fuel = f + 1 := ⟨fuel - 1, by omega⟩
    have hgt : ¬ a ≤ s.config.MaxRetries := by
      simp only [Nat.cast_zero, add_zero] at hsum; omega
    rw [scheduler.retryLoop, if_neg hgt, expectedRetryEvents_zero]
  | succ r ih =>
    intro fuel a c hfuel ha hsum
    obtain ⟨f, rfl⟩ : ∃ f, fuel = f + 1 := ⟨fuel - 1, by omega⟩
    have hsum' : a + (r : Int) + 1 = s.config.MaxRetries + 1 := by
      rw [← hsum]; push_cast; ring
    have hle : a ≤ s.config.MaxRetries := by omega
    have hwrap : wrapInt64 (a + 1) = a + 1 := by
      apply wrapInt64_eq
      unfold IsInt64
      omega
    rw [scheduler.retryLoop, if_pos hle, hp]
    simp only [hwrap]
    cases hpm : p.ProcessMessages c with
    | none =>
      simp only
      rw [expectedRetryEvents_success r _ _ (by simpa using hpm)]
    | some e =>
      simp only
      cases r with
      | zero =>
        have hnlt : ¬ a < s.config.MaxRetries := by
          simp only [Nat.cast_zero, add_zero] at hsum'; omega
        rw [if_neg hnlt, ih f (a + 1) (c + 1) (by omega) (by omega)
          (by simp only [Nat.cast_zero, add_zero] at hsum' ⊢; omega),
          expectedRetryEvents_zero, expectedRetryEvents_last _ _ e (by simpa using hpm)]
        rfl
      | succ r' =>
        have hlt : a < s.config.MaxRetries := by
          push_cast at hsum'; omega
        rw [if_pos hlt]
        cases hd : ctxDone c with
        | true =>
          simp only [if_true]
          rw [expectedRetryEvents_cancel r' _ _ e (by simpa using hpm) (by simpa using hd)]
        | false =>
          simp only [Bool.false_eq_true, if_false]
          rw [ih f (a + 1) (c + 1) (by omega) (by omega) (by push_cast at hsum' ⊢; omega),
            expectedRetryEvents_retry r' _ _ e (by simpa using hpm) (by simpa using hd)]
          have e1 : (fun i => p.ProcessMessages (c + 1 + i))
              = fun i => p.ProcessMessages (c + (i + 1)) := by
            funext i; congr 1; omega
          have e2 : (fun i => ctxDone (c + 1 + i)) = fun i => ctxDone (c + (i + 1)) := by
            funext i; congr 1; omega
          rw [e1, e2]
          rfl

theorem processWithRetry_eq_expected (s : scheduler) (p : MessageProcessor)
    (ctxDone : Nat → Bool) (fuel : Nat) (hp : s.processor = some p)
    (hfit : s.config.MaxRetries < 9223372036854775807)
    (hfuel : s.config.MaxRetries.toNat < fuel) :
    s.processWithRetry ctxDone fuel =
      .finished (expectedRetryEvents s.config.MaxRetries.toNat p.ProcessMessages ctxDone) := by
  unfold scheduler.processWithRetry
  by_cases hpos : 0 ≤ s.config.MaxRetries
  · have h := retryLoop_eq_expected s p hp ctxDone hfit s.config.MaxRetries.toNat fuel 1 0
      hfuel (le_refl _) (by rw [Int.toNat_of_nonneg hpos]; ring)
    simpa using h
  · obtain ⟨f, rfl⟩ : ∃ f, fuel = f + 1 := ⟨fuel - 1, by omega⟩
    have hgt : ¬ (1 : Int) ≤ s.config.MaxRetries := by omega
    have h0 : s.config.MaxRetries.toNat = 0 := by omega
    rw [scheduler.retryLoop, if_neg hgt, h0, expectedRetryEvents_zero]

/-- C17: one run of `processWithRetry` with `MaxRetries = n` below the
largest `int` returns, with no error to hand on, after the stated events.
Without cancellation it calls `ProcessMessages` exactly `k` times, `k` being
the position of the first successful attempt among the first `n` and `n`
when there is none (0 for `n ≤ 0`), with one wait between each two attempts
and none after the last. When the wait after attempt `j + 1` is the first
to observe the cancellation, the run ends with that wait after `j + 1`
attempts. -/
theorem processWithRetry_attempts_and_waits (s : scheduler) (p : MessageProcessor)
    (ctxDone : Nat → Bool) (fuel : Nat) (hp : s.processor = some p)
    (hfit : s.config.MaxRetries < 9223372036854775807)
    (hfuel : s.config.MaxRetries.toNat < fuel) :
    s.processWithRetry ctxDone fuel =
        .finished (expectedRetryEvents s.config.MaxRetries.toNat p.ProcessMessages ctxDone) ∧
      ((∀ i, ctxDone i = false) →
        s.processWithRetry ctxDone fuel =
          .finished (List.intersperse (.wait false)
            ((List.range (expectedAttempts s.config.MaxRetries.toNat p.ProcessMessages)).map
              fun i => .attempt (p.ProcessMessages i)))) ∧
      (∀ j, (List.range (expectedAttempts s.config.MaxRetries.toNat p.ProcessMessages - 1)).find?
            (fun i => ctxDone i) = some j →
        s.processWithRetry ctxDone fuel =
          .finished (List.intersperse (.wait false)
              ((List.range (j + 1)).map fun i => .attempt (p.ProcessMessages i))
            ++ [.wait true])) ∧
      (s.config.MaxRetries ≤ 0 → s.processWithRetry ctxDone fuel = .finished []) := by
  have h := processWithRetry_eq_expected s p ctxDone fuel hp hfit hfuel
  refine ⟨h, ?_, ?_, ?_⟩
  · intro hno
    rw [h]
    have hnone : ∀ l : List Nat, l.find? (fun i => ctxDone i) = none := by
      intro l
      rw [List.find?_eq_none]
      intro x _
      simp [hno x]
    simp only [expectedRetryEvents, hnone]
  · intro j hj
    rw [h]
    simp only [expectedRetryEvents, hj]
  · intro hle
    rw [h]
    have h0 : s.config.MaxRetries.toNat = 0 := by omega
    rw [h0, expectedRetryEvents_zero]

theorem processWithRetry_attempts_and_waits_witness :
    scheduler.processWithRetry
        { NewScheduler ⟨10 * Millisecond, 2, 3, Millisecond, false⟩ with
          processor := some ⟨fun i => if i < 2 then some (.errorString "fail") else none⟩ }
        (fun _ => false) 4
      = .finished [.attempt (some (.errorString "fail")), .wait false,
          .attempt (some (.errorString "fail")), .wait false, .attempt none] ∧
    scheduler.processWithRetry
        { NewScheduler ⟨10 * Millisecond, 2, 3, Millisecond, false⟩ with
          processor := some ⟨fun _ => some (.errorString "fail")⟩ }
        (fun i => decide (i = 1)) 4
      = .finished [.attempt (some (.errorString "fail")), .wait false,
          .attempt (some (.errorString "fail")), .wait true] :=
  ⟨(processWithRetry_attempts_and_waits
      { NewScheduler ⟨10 * Millisecond, 2, 3, Millisecond, false⟩ with
        processor := some ⟨fun i => if i < 2 then some (.errorString "fail") else none⟩ }
      ⟨fun i => if i < 2 then some (.errorString "fail") else none⟩
      (fun _ => false) 4 rfl (by decide) (by decide)).1.trans (by decide),
   (processWithRetry_attempts_and_waits
      { NewScheduler ⟨10 * Millisecond, 2, 3, Millisecond, false⟩ with
        processor := some ⟨fun _ => some (.errorString "fail")⟩ }
      ⟨fun _ => some (.errorString "fail")⟩
      (fun i => decide (i = 1)) 4 rfl (by decide) (by decide)).1.trans (by decide)⟩

/-! ## Properties of the delivery client -/

/-- C13: with a breaker in place, when `Execute` gives `ErrCircuitOpen` the
client returns a nil response and an error with code `WEBHOOK_CIRCUIT_OPEN`
and status 503; when it gives `ErrCircuitHalfOpen`, a nil response and an
error with code `WEBHOOK_CIRCUIT_HALF_OPEN` and status 503; neither has the
code `WEBHOOK_ERROR`. Any other error of `Execute` comes back unchanged with a
nil response. -/
theorem SendMessage_maps_breaker_errors {σ : Type} (w : webhook.client σ)
    (cb : webhook.CircuitBreaker σ) (request : WebhookRequest) (s : σ)
    (hcb : w.circuitBreaker = some cb) :
    ((cb.Execute (w.guardedSend request) (s, none)).1 = some .ErrCircuitOpen →
        (w.SendMessage request s).1 =
          (none, some (.appError "WEBHOOK_CIRCUIT_OPEN"
            "Webhook service is temporarily unavailable"
            "Circuit breaker is open due to repeated failures" 503))) ∧
      ((cb.Execute (w.guardedSend request) (s, none)).1 = some .ErrCircuitHalfOpen →
        (w.SendMessage request s).1 =
          (none, some (.appError "WEBHOOK_CIRCUIT_HALF_OPEN"
            "Webhook service is testing recovery"
            "Circuit breaker is in half-open state" 503))) ∧
      (∀ e, (cb.Execute (w.guardedSend request) (s, none)).1 = some e →
        e ≠ .ErrCircuitOpen → e ≠ .ErrCircuitHalfOpen →
        (w.SendMessage request s).1 = (none, some e)) ∧
      (GoError.appError "WEBHOOK_CIRCUIT_OPEN" "Webhook service is temporarily unavailable"
          "Circuit breaker is open due to repeated failures" 503).code?
        ≠ some "WEBHOOK_ERROR" ∧
      (GoError.appError "WEBHOOK_CIRCUIT_HALF_OPEN" "Webhook service is testing recovery"
          "Circuit breaker is in half-open state" 503).code?
        ≠ some "WEBHOOK_ERROR" := by
  unfold webhook.client.SendMessage
  rw [hcb]
  simp only []
  rcases hx : cb.Execute (w.guardedSend request) (s, none) with ⟨r, s1, resp⟩
  refine ⟨?_, ?_, ?_, by decide, by decide⟩
  · intro h
    simp only at h
    subst h
    rfl
  · intro h
    simp only at h
    subst h
    rfl
  · intro e h hne1 hne2
    simp only at h
    subst h
    simp [hne1, hne2]

theorem SendMessage_maps_breaker_errors_witness :
    (webhook.client.SendMessage
        (⟨⟨fun _ _ (u : Unit) => (⟨⟨200, ""⟩, none, ⟨"Accepted", "id-1"⟩⟩, u)⟩,
          ⟨"http://webhook"⟩, some ⟨fun _ st => (some .ErrCircuitOpen, st)⟩⟩ :
          webhook.client Unit) ⟨"+123", "hi"⟩ ()).1
      = (none, some (.appError "WEBHOOK_CIRCUIT_OPEN" "Webhook service is temporarily unavailable"
          "Circuit breaker is open due to repeated failures" 503)) ∧
    (webhook.client.SendMessage
        (⟨⟨fun _ _ (u : Unit) => (⟨⟨200, ""⟩, none, ⟨"Accepted", "id-1"⟩⟩, u)⟩,
          ⟨"http://webhook"⟩, some ⟨fun _ st => (some (.errorString "cb fail"), st)⟩⟩ :
          webhook.client Unit) ⟨"+123", "hi"⟩ ()).1
      = (none, some (.errorString "cb fail")) :=
  ⟨(SendMessage_maps_breaker_errors
      (⟨⟨fun _ _ (u : Unit) => (⟨⟨200, ""⟩, none, ⟨"Accepted", "id-1"⟩⟩, u)⟩,
          ⟨"http://webhook"⟩, some ⟨fun _ st => (some .ErrCircuitOpen, st)⟩⟩ :
          webhook.client Unit) ⟨fun _ st => (some .ErrCircuitOpen, st)⟩ ⟨"+123", "hi"⟩ ()
      rfl).1 rfl,
   (SendMessage_maps_breaker_errors
      (⟨⟨fun _ _ (u : Unit) => (⟨⟨200, ""⟩, none, ⟨"Accepted", "id-1"⟩⟩, u)⟩,
          ⟨"http://webhook"⟩, some ⟨fun _ st => (some (.errorString "cb fail"), st)⟩⟩ :
          webhook.client Unit) ⟨fun _ st => (some (.errorString "cb fail"), st)⟩
      ⟨"+123", "hi"⟩ () rfl).2.2.1 _ rfl (by decide) (by decide)⟩

/-- C14: `sendMessageDirect` returns a response and a nil error exactly when
the transport gave no error and a status code `s` with `200 ≤ s < 300`, and
the response is then the one the transport decoded. For every other status
code it returns a nil response and an error with code `WEBHOOK_ERROR` whose
message ends with the decimal status code and whose details are the response
body; after a transport error it returns a nil response and an error with
code `WEBHOOK_ERROR` whose details are the text of the transport error. -/
theorem sendMessageDirect_outcomes {σ : Type} (w : webhook.client σ) (request : WebhookRequest)
    (s : σ) :
    (((w.sendMessageDirect request s).1.1.isSome = true ∧
          (w.sendMessageDirect request s).1.2 = none) ↔
        ((w.requester.Post w.config.URL request s).1.err = none ∧
          200 ≤ (w.requester.Post w.config.URL request s).1.resp.StatusCode ∧
          (w.requester.Post w.config.URL request s).1.resp.StatusCode < 300)) ∧
      ((w.requester.Post w.config.URL request s).1.err = none →
        200 ≤ (w.requester.Post w.config.URL request s).1.resp.StatusCode →
        (w.requester.Post w.config.URL request s).1.resp.StatusCode < 300 →
        (w.sendMessageDirect request s).1
          = (some (w.requester.Post w.config.URL request s).1.result, none)) ∧
      ((w.requester.Post w.config.URL request s).1.err = none →
        ((w.requester.Post w.config.URL request s).1.resp.StatusCode < 200 ∨
          300 ≤ (w.requester.Post w.config.URL request s).1.resp.StatusCode) →
        (w.sendMessageDirect request s).1 =
          (none, some (.appError "WEBHOOK_ERROR"
            ("Webhook request failed with status " ++
              toString (w.requester.Post w.config.URL request s).1.resp.StatusCode)
            (w.requester.Post w.config.URL request s).1.resp.body 500))) ∧
      (∀ e, (w.requester.Post w.config.URL request s).1.err = some e →
        (w.sendMessageDirect request s).1 =
          (none, some (.appError "WEBHOOK_ERROR" "Failed to send request" e.Error 500))) := by
  unfold webhook.client.sendMessageDirect
  rcases hx : w.requester.Post w.config.URL request s with ⟨⟨⟨code, body⟩, err, result⟩, s1⟩
  cases err with
  | some e =>
    simp [WrapError]
  | none =>
    by_cases hc : code < 200 ∨ code ≥ 300
    · simp only [hc, if_true]
      refine ⟨?_, ?_, ?_, ?_⟩
      · simp; omega
      · intro _ h1 h2; omega
      · intro _ _; rfl
      · intro e h; simp at h
    · simp only [hc, if_false]
      refine ⟨?_, ?_, ?_, ?_⟩
      · simp; omega
      · intro _ _ _; trivial
      · intro _ h; exact h.elim
      · intro e h; simp at h

theorem sendMessageDirect_outcomes_witness :
    (webhook.client.sendMessageDirect
        (⟨⟨fun _ _ (u : Unit) => (⟨⟨500, "fail"⟩, none, ⟨"", ""⟩⟩, u)⟩,
          ⟨"http://webhook"⟩, none⟩ : webhook.client Unit) ⟨"+123", "hi"⟩ ()).1
      = (none, some (.appError "WEBHOOK_ERROR" "Webhook request failed with status 500"
          "fail" 500)) ∧
    (webhook.client.sendMessageDirect
        (⟨⟨fun _ _ (u : Unit) => (⟨⟨200, ""⟩, none, ⟨"Accepted", "id-1"⟩⟩, u)⟩,
          ⟨"http://webhook"⟩, none⟩ : webhook.client Unit) ⟨"+123", "hi"⟩ ()).1
      = (some ⟨"Accepted", "id-1"⟩, none) ∧
    (webhook.client.sendMessageDirect
        (⟨⟨fun _ _ (u : Unit) =>
            (⟨⟨200, ""⟩, some (.errorString "http fail"), ⟨"", ""⟩⟩, u)⟩,
          ⟨"http://webhook"⟩, none⟩ : webhook.client Unit) ⟨"+123", "hi"⟩ ()).1
      = (none, some (.appError "WEBHOOK_ERROR" "Failed to send request" "http fail" 500)) :=
  ⟨((sendMessageDirect_outcomes
      (⟨⟨fun _ _ (u : Unit) => (⟨⟨500, "fail"⟩, none, ⟨"", ""⟩⟩, u)⟩,
          ⟨"http://webhook"⟩, none⟩ : webhook.client Unit) ⟨"+123", "hi"⟩ ()).2.2.1 rfl
      (Or.inr (by decide))).trans (by decide),
   (sendMessageDirect_outcomes
      (⟨⟨fun _ _ (u : Unit) => (⟨⟨200, ""⟩, none, ⟨"Accepted", "id-1"⟩⟩, u)⟩,
          ⟨"http://webhook"⟩, none⟩ : webhook.client Unit) ⟨"+123", "hi"⟩ ()).2.1 rfl
      (by decide) (by decide),
   (sendMessageDirect_outcomes
      (⟨⟨fun _ _ (u : Unit) =>
            (⟨⟨200, ""⟩, some (.errorString "http fail"), ⟨"", ""⟩⟩, u)⟩,
          ⟨"http://webhook"⟩, none⟩ : webhook.client Unit) ⟨"+123", "hi"⟩ ()).2.2.2 _ rfl⟩

/-! ## The cache and the delivery outcomes -/

theorem withoutCacheWrites_append (a b : List Call) :
    withoutCacheWrites (a ++ b) = withoutCacheWrites a ++ withoutCacheWrites b := by
  simp [withoutCacheWrites]

theorem sendSingleMessage_withCache {σ κ : Type} (s : message σ)
    (cache : Option (CacheService κ)) (m : Message) (w : σ) (k : κ) :
    ((s.withCache cache).sendSingleMessage m (w, k)).1
        = (({ s with cacheService := none } : message σ).sendSingleMessage m w).1 ∧
      ((s.withCache cache).sendSingleMessage m (w, k)).2.1.1
        = (({ s with cacheService := none } : message σ).sendSingleMessage m w).2.1 ∧
      withoutCacheWrites ((s.withCache cache).sendSingleMessage m (w, k)).2.2
        = (({ s with cacheService := none } : message σ).sendSingleMessage m w).2.2 ∧
      cacheWriteAfterSuccess ((s.withCache cache).sendSingleMessage m (w, k)).2.2 := by
  unfold message.sendSingleMessage cacheWriteAfterSuccess
  cases hv : m.IsValidForSending with
  | false => simp [withoutCacheWrites, cacheWrites]
  | true =>
    simp only [Bool.not_true, Bool.false_eq_true, if_false, message.withCache]
    rcases hs : s.webhookService.SendMessage { To := m.To, Content := m.Content } w with ⟨r, w1⟩
    cases r with
    | error err =>
      simp only
      rcases hu : s.messageRepo.UpdateStatus m.ID messagestatus.Failed none (some err.Error) w1
        with ⟨ru, w2⟩
      simp [withoutCacheWrites, cacheWrites, hu]
    | ok response =>
      simp only
      rcases hu : s.messageRepo.UpdateStatus m.ID messagestatus.Sent (some response.MessageID)
        none w1 with ⟨ru, w2⟩
      cases ru with
      | some err => simp [withoutCacheWrites, cacheWrites]
      | none =>
        cases cache with
        | none => simp [withoutCacheWrites, cacheWrites]
        | some c =>
          simp [withoutCacheWrites, cacheWrites]
          exact ⟨_, response, ⟨rfl, rfl⟩, rfl⟩

theorem projections_withoutCacheWrites (calls : List Call) :
    sendRequests (withoutCacheWrites calls) = sendRequests calls ∧
      sendResults (withoutCacheWrites calls) = sendResults calls ∧
      statusUpdates (withoutCacheWrites calls) = statusUpdates calls := by
  induction calls with
  | nil => exact ⟨rfl, rfl, rfl⟩
  | cons c rest ih =>
    obtain ⟨h1, h2, h3⟩ := ih
    simp only [sendRequests, sendResults, statusUpdates, withoutCacheWrites] at h1 h2 h3 ⊢
    cases c <;> simp [List.filter_cons, List.filterMap_cons, h1, h2, h3]

theorem sendEach_withCache {σ κ : Type} (s : message σ) (cache : Option (CacheService κ))
    (msgs : List Message) :
    ∀ (w : σ) (k : κ),
      ((s.withCache cache).sendEach msgs (w, k)).1.1
          = (({ s with cacheService := none } : message σ).sendEach msgs w).1 ∧
        withoutCacheWrites ((s.withCache cache).sendEach msgs (w, k)).2
          = (({ s with cacheService := none } : message σ).sendEach msgs w).2 ∧
        ∃ chunks : List (List Call),
          ((s.withCache cache).sendEach msgs (w, k)).2 = chunks.flatten ∧
            ∀ ch ∈ chunks, cacheWriteAfterSuccess ch := by
  induction msgs with
  | nil =>
    intro w k
    exact ⟨rfl, rfl, [], rfl, fun ch h => by simp at h⟩
  | cons m rest ih =>
    intro w k
    obtain ⟨_, h2, h3, h4⟩ := sendSingleMessage_withCache s cache m w k
    rcases hr : (s.withCache cache).sendSingleMessage m (w, k) with ⟨e1, ⟨w1, k1⟩, calls1⟩
    rw [hr] at h2 h3 h4
    simp only at h2 h3 h4
    obtain ⟨i1, i2, chunks, i3, i4⟩ := ih w1 k1
    rw [sendEach_cons, sendEach_cons, hr]
    simp only
    rw [← h2]
    refine ⟨i1, ?_, calls1 :: chunks, ?_, ?_⟩
    · rw [withoutCacheWrites_append, h3, i2]
    · rw [i3]; rfl
    · intro ch hch
      rcases List.mem_cons.1 hch with rfl | hmem
      · exact h4
      · exact i4 ch hmem

/-- C20: take any store and webhook, and any cache with a state of its own,
absent, succeeding or failing as it may. `SendPendingMessages` returns the
same value, leaves the store and webhook in the same state and makes the same
calls on them, with the same results and in the same order, as the service
without cache; and its calls fall into runs of which each either holds no
cache write or is a successful send, the successful update to Sent and the
cache write of that one message. -/
theorem cache_never_affects_delivery {σ κ : Type} (s : message σ)
    (cache : Option (CacheService κ)) (limit : Int) (w : σ) (k : κ) :
    ((s.withCache cache).SendPendingMessages limit (w, k)).1
        = (({ s with cacheService := none } : message σ).SendPendingMessages limit w).1 ∧
      ((s.withCache cache).SendPendingMessages limit (w, k)).2.1.1
        = (({ s with cacheService := none } : message σ).SendPendingMessages limit w).2.1 ∧
      withoutCacheWrites ((s.withCache cache).SendPendingMessages limit (w, k)).2.2
        = (({ s with cacheService := none } : message σ).SendPendingMessages limit w).2.2 ∧
      sendRequests ((s.withCache cache).SendPendingMessages limit (w, k)).2.2
        = sendRequests
            (({ s with cacheService := none } : message σ).SendPendingMessages limit w).2.2 ∧
      statusUpdates ((s.withCache cache).SendPendingMessages limit (w, k)).2.2
        = statusUpdates
            (({ s with cacheService := none } : message σ).SendPendingMessages limit w).2.2 ∧
      ∃ chunks : List (List Call),
        ((s.withCache cache).SendPendingMessages limit (w, k)).2.2 = chunks.flatten ∧
          ∀ ch ∈ chunks, cacheWriteAfterSuccess ch := by
  have key : ((s.withCache cache).SendPendingMessages limit (w, k)).1
        = (({ s with cacheService := none } : message σ).SendPendingMessages limit w).1 ∧
      ((s.withCache cache).SendPendingMessages limit (w, k)).2.1.1
        = (({ s with cacheService := none } : message σ).SendPendingMessages limit w).2.1 ∧
      withoutCacheWrites ((s.withCache cache).SendPendingMessages limit (w, k)).2.2
        = (({ s with cacheService := none } : message σ).SendPendingMessages limit w).2.2 ∧
      ∃ chunks : List (List Call),
        ((s.withCache cache).SendPendingMessages limit (w, k)).2.2 = chunks.flatten ∧
          ∀ ch ∈ chunks, cacheWriteAfterSuccess ch := by
    rcases hf : s.messageRepo.GetPendingMessages limit w with ⟨r, w1⟩
    have hfc : (s.withCache cache).messageRepo.GetPendingMessages limit (w, k) = (r, (w1, k)) := by
      simp [message.withCache, hf]
    have hf0 : ({ s with cacheService := none } : message σ).messageRepo.GetPendingMessages
        limit w = (r, w1) := hf
    cases r with
    | error err =>
      rw [SendPendingMessages_of_fetch_error (s.withCache cache) limit (w, k) err
          (by rw [hfc]),
        SendPendingMessages_of_fetch_error _ limit w err (by rw [hf0]), hfc, hf0]
      refine ⟨rfl, rfl, rfl, [[.GetPendingMessages limit (.error err)]], rfl, ?_⟩
      intro ch hch
      simp only [List.mem_singleton] at hch
      subst hch
      exact Or.inl rfl
    | ok msgs =>
      rw [SendPendingMessages_of_fetch_ok (s.withCache cache) limit (w, k) msgs
          (by rw [hfc]),
        SendPendingMessages_of_fetch_ok _ limit w msgs (by rw [hf0]), hfc, hf0]
      obtain ⟨i1, i2, chunks, i3, i4⟩ := sendEach_withCache s cache msgs w1 k
      refine ⟨rfl, i1, ?_, [.GetPendingMessages limit (.ok msgs)] :: chunks, ?_, ?_⟩
      · simp only at i2 ⊢
        rw [← i2]
        simp [withoutCacheWrites]
      · simp only at i3 ⊢
        rw [i3]; rfl
      · intro ch hch
        rcases List.mem_cons.1 hch with rfl | hmem
        · exact Or.inl rfl
        · exact i4 ch hmem
  obtain ⟨k1, k2, k3, k4⟩ := key
  refine ⟨k1, k2, k3, ?_, ?_, k4⟩
  · rw [← k3, (projections_withoutCacheWrites _).1]
  · rw [← k3, (projections_withoutCacheWrites _).2.2]


/-! ## The cache entry -/

/-- C21: every cache write of `sendSingleMessage` is made under the id of the
message and holds the external id of the webhook response; its field
`SentAt` holds the creation time of the message, `message.CreatedAt`,
whenever the message was sent. -/
theorem cache_entry_holds_creation_time {σ : Type} (s : message σ) (m : Message) (w : σ)
    (id : UUID) (entry : CacheEntry)
    (hmem : (id, entry) ∈ cacheWrites (s.sendSingleMessage m w).2.2) :
    id = m.ID ∧ entry.SentAt = m.CreatedAt ∧
      ∃ response, (s.webhookService.SendMessage ⟨m.To, m.Content⟩ w).1 = .ok response ∧
        entry.MessageID = response.MessageID := by
  revert hmem
  unfold message.sendSingleMessage
  cases hv : m.IsValidForSending with
  | false => simp [cacheWrites]
  | true =>
    simp only [Bool.not_true, Bool.false_eq_true, if_false]
    rcases hs : s.webhookService.SendMessage { To := m.To, Content := m.Content } w with ⟨r, w1⟩
    cases r with
    | error err =>
      simp only
      rcases hu : s.messageRepo.UpdateStatus m.ID messagestatus.Failed none (some err.Error) w1
        with ⟨ru, w2⟩
      simp [cacheWrites]
    | ok response =>
      simp only
      rcases hu : s.messageRepo.UpdateStatus m.ID messagestatus.Sent (some response.MessageID)
        none w1 with ⟨ru, w2⟩
      cases ru with
      | some err => simp [cacheWrites]
      | none =>
        cases hc : s.cacheService with
        | none => simp [cacheWrites]
        | some c =>
          simp only [cacheWrites, List.filterMap_cons, List.filterMap_nil,
            List.mem_singleton, Prod.mk.injEq]
          rintro ⟨rfl, rfl⟩
          exact ⟨rfl, rfl, response, rfl, rfl⟩

theorem cache_entry_holds_creation_time_witness :
    cacheWrites (sampleService.sendSingleMessage
        { ID := 5, To := "+905555555555", Content := "fifth", Status := messagestatus.Pending,
          CreatedAt := 15, SentAt := none, MessageID := none, FailureReason := none } 1000).2.2
      = [(5, { MessageID := "ext-fifth", SentAt := 15 })] ∧
    ({ MessageID := "ext-fifth", SentAt := 15 } : CacheEntry).SentAt
      = Message.CreatedAt
          { ID := 5, To := "+905555555555", Content := "fifth", Status := messagestatus.Pending,
            CreatedAt := 15, SentAt := none, MessageID := none, FailureReason := none } :=
  ⟨by decide,
   (cache_entry_holds_creation_time sampleService
      { ID := 5, To := "+905555555555", Content := "fifth", Status := messagestatus.Pending,
        CreatedAt := 15, SentAt := none, MessageID := none, FailureReason := none } 1000
      5 { MessageID := "ext-fifth", SentAt := 15 } (by decide)).2.1⟩

/-! ## Transitions, probes and reachable states of the breaker -/

/-- C22: a HalfOpen breaker whose last Closed failure was at time 0, with a
timeout of 100 ms. The probe made at 1000 ms fails and returns the breaker to
Open, but the last-failure time stays 0: `executeHalfOpen` does not record
it. The call made 1 ms later, well before 1000 ms + 100 ms, is therefore not
rejected with `ErrCircuitOpen`: it takes the path of an elapsed timeout. -/
theorem failed_probe_keeps_old_failure_time :
    ∃ cb cb', ({ New ⟨3, 2, 100 * Millisecond, 1⟩ with
          state := StateHalfOpen, failureCount := 3, lastFailureTime := 0 } :
          CircuitBreaker).Execute (some (.errorString "probe failed")) (1000 * Millisecond)
        = .returned (some (.errorString "probe failed")) cb 1 ∧
      cb.state = StateOpen ∧ cb.lastFailureTime = 0 ∧
      timeSince (1001 * Millisecond) (1000 * Millisecond) < cb.config.Timeout ∧
      cb.Execute none (1001 * Millisecond) = .blocked cb' 0 ∧
      cb.Execute none (1001 * Millisecond)
        ≠ .returned (some .ErrCircuitOpen)
            { cb with totalTimeouts := wrapInt64 (cb.totalTimeouts + 1) } 0 :=
  ⟨_, _, rfl, rfl, rfl, by decide, rfl, by decide⟩

/-- C23: each transition leaves a breaker that is already in the target
state as it is, and gives the same breaker applied twice as applied once.
With the lock free, `ForceOpen` leaves the breaker Open and `ForceClose`
leaves it Closed from any state, change nothing on a breaker already there,
and give the same breaker called twice as called once. -/
theorem transitions_idempotent (cb : CircuitBreaker) :
    ((cb.state = StateOpen → cb.transitionToOpen = cb) ∧
        (cb.state = StateHalfOpen → cb.transitionToHalfOpen = cb) ∧
        (cb.state = StateClosed → cb.transitionToClosed = cb)) ∧
      (cb.transitionToOpen.transitionToOpen = cb.transitionToOpen ∧
        cb.transitionToHalfOpen.transitionToHalfOpen = cb.transitionToHalfOpen ∧
        cb.transitionToClosed.transitionToClosed = cb.transitionToClosed) ∧
      (cb.mu = false →
        ∃ opened closed, cb.ForceOpen = some opened ∧ cb.ForceClose = some closed ∧
          opened.state = StateOpen ∧ closed.state = StateClosed ∧
          (cb.state = StateOpen → opened = cb) ∧ (cb.state = StateClosed → closed = cb) ∧
          opened.ForceOpen = some opened ∧ closed.ForceClose = some closed) := by
  obtain ⟨config, state, mu, fc, lft, sc, cc, tc, tf, ts, tt⟩ := cb
  refine ⟨⟨?_, ?_, ?_⟩, ⟨?_, ?_, ?_⟩, ?_⟩
  · intro h; simp only at h; subst h; rfl
  · intro h; simp only at h; subst h; rfl
  · intro h; simp only at h; subst h; rfl
  · by_cases h : state = StateOpen <;> simp [CircuitBreaker.transitionToOpen, h]
  · by_cases h : state = StateHalfOpen <;> simp [CircuitBreaker.transitionToHalfOpen, h]
  · by_cases h : state = StateClosed <;> simp [CircuitBreaker.transitionToClosed, h]
  · intro hmu
    simp only at hmu
    subst hmu
    have hoc : StateOpen ≠ StateClosed := by decide
    have hco : StateClosed ≠ StateOpen := by decide
    by_cases ho : state = StateOpen
    · subst ho
      simp [CircuitBreaker.ForceOpen, CircuitBreaker.ForceClose, CircuitBreaker.Lock,
        CircuitBreaker.Unlock, CircuitBreaker.transitionToOpen,
        CircuitBreaker.transitionToClosed, hoc]
    · by_cases hc : state = StateClosed
      · subst hc
        simp [CircuitBreaker.ForceOpen, CircuitBreaker.ForceClose, CircuitBreaker.Lock,
          CircuitBreaker.Unlock, CircuitBreaker.transitionToOpen,
          CircuitBreaker.transitionToClosed, hco]
      · simp [CircuitBreaker.ForceOpen, CircuitBreaker.ForceClose, CircuitBreaker.Lock,
          CircuitBreaker.Unlock, CircuitBreaker.transitionToOpen,
          CircuitBreaker.transitionToClosed, ho, hc]

theorem transitions_idempotent_witness :
    (New ⟨0, 0, 0, 0⟩).transitionToClosed = New ⟨0, 0, 0, 0⟩ ∧
      ({ New ⟨0, 0, 0, 0⟩ with state := StateOpen, failureCount := 5 } :
          CircuitBreaker).transitionToOpen
        = { New ⟨0, 0, 0, 0⟩ with state := StateOpen, failureCount := 5 } ∧
      ({ New ⟨0, 0, 0, 0⟩ with state := StateHalfOpen, successCount := 2 } :
          CircuitBreaker).transitionToHalfOpen
        = { New ⟨0, 0, 0, 0⟩ with state := StateHalfOpen, successCount := 2 } ∧
      ∃ opened closed, (New ⟨0, 0, 0, 0⟩).ForceOpen = some opened ∧
        (New ⟨0, 0, 0, 0⟩).ForceClose = some closed ∧
        opened.state = StateOpen ∧ closed.state = StateClosed ∧
        ((New ⟨0, 0, 0, 0⟩).state = StateOpen → opened = New ⟨0, 0, 0, 0⟩) ∧
        ((New ⟨0, 0, 0, 0⟩).state = StateClosed → closed = New ⟨0, 0, 0, 0⟩) ∧
        opened.ForceOpen = some opened ∧ closed.ForceClose = some closed :=
  ⟨(transitions_idempotent (New ⟨0, 0, 0, 0⟩)).1.2.2 rfl,
    (transitions_idempotent
      { New ⟨0, 0, 0, 0⟩ with state := StateOpen, failureCount := 5 }).1.1 rfl,
    (transitions_idempotent
      { New ⟨0, 0, 0, 0⟩ with state := StateHalfOpen, successCount := 2 }).1.2.1 rfl,
    (transitions_idempotent (New ⟨0, 0, 0, 0⟩)).2.2 rfl⟩

/-- C26: a Closed breaker, whatever its failure count, answers a call whose
guarded operation succeeds with nil, stays Closed and has failure count 0
afterwards; from there it takes exactly `FailureThreshold` consecutive
failures to open it: after that many failing calls it is Open, after fewer it
is still Closed. -/
theorem closed_success_resets_failures (cb : CircuitBreaker) (now : Int)
    (failures : List (GoError × Int)) (hstate : cb.state = StateClosed) (hmu : cb.mu = false)
    (hthr : 1 ≤ cb.config.FailureThreshold) (hint : IsInt64 cb.config.FailureThreshold)
    (hlen : (failures.length : Int) ≤ cb.config.FailureThreshold) :
    ∃ cb1 cb2, cb.Execute none now = .returned none cb1 1 ∧
      cb1.state = StateClosed ∧ cb1.failureCount = 0 ∧
      cb1.ExecuteAll (failures.map fun c => (some c.1, c.2))
        = some (failures.map fun c => some c.1, cb2) ∧
      cb2.state = if (failures.length : Int) = cb.config.FailureThreshold
        then StateOpen else StateClosed := by
  have h1 : cb.Execute none now =
      .returned none { cb with failureCount := 0,
                               totalCalls := wrapInt64 (cb.totalCalls + 1),
                               totalSuccesses := wrapInt64 (cb.totalSuccesses + 1) } 1 := by
    rw [Execute_closed cb none now hstate hmu]
    obtain ⟨config, state, mu, fc, lft, sc, cc, tc, tf, ts, tt⟩ := cb
    simp only at hstate hmu
    subst hstate hmu
    simp [CircuitBreaker.executeClosed, CircuitBreaker.Lock, CircuitBreaker.Unlock]
  obtain ⟨cb2, hrun, _, _, _, hst⟩ :=
    ExecuteAll_failures failures
      { cb with failureCount := 0, totalCalls := wrapInt64 (cb.totalCalls + 1),
                totalSuccesses := wrapInt64 (cb.totalSuccesses + 1) }
      hstate hmu (le_refl _) (by show (0 : Int) < cb.config.FailureThreshold; omega)
      (by show (0 : Int) + failures.length ≤ cb.config.FailureThreshold; omega) hint
  refine ⟨_, cb2, h1, hstate, rfl, hrun, ?_⟩
  rw [hst]
  show (if (0 : Int) + failures.length = cb.config.FailureThreshold then StateOpen
    else StateClosed) = _
  rw [zero_add]

theorem closed_success_resets_failures_witness :
    ∃ cb1 cb2, ({ New ⟨3, 2, 100 * Millisecond, 1⟩ with failureCount := 2 } :
          CircuitBreaker).Execute none 5 = .returned none cb1 1 ∧
      cb1.state = StateClosed ∧ cb1.failureCount = 0 ∧
      cb1.ExecuteAll [(some (.errorString "e"), 6), (some (.errorString "e"), 7)]
        = some ([some (.errorString "e"), some (.errorString "e")], cb2) ∧
      cb2.state = StateClosed :=
  closed_success_resets_failures { New ⟨3, 2, 100 * Millisecond, 1⟩ with failureCount := 2 } 5
    [(.errorString "e", 6), (.errorString "e", 7)] rfl rfl (by decide) (by decide) (by decide)

/-- C27: a HalfOpen breaker with success count `c` that admits a call whose
guarded operation succeeds returns nil; with `c + 1` below `SuccessThreshold`
it stays HalfOpen with success count `c + 1`, otherwise it becomes Closed
with failure count, success count and in-flight probe count 0. The count
`c + 1` is taken to be an `int`. -/
theorem halfOpen_success_counts (cb : CircuitBreaker) (now : Int)
    (hstate : cb.state = StateHalfOpen) (hmu : cb.mu = false)
    (hroom : cb.concurrentCalls < cb.config.MaxConcurrentCalls)
    (hfit : IsInt64 (cb.successCount + 1)) :
    ∃ cb', cb.Execute none now = .returned none cb' 1 ∧
      (cb.successCount + 1 < cb.config.SuccessThreshold →
        cb'.state = StateHalfOpen ∧ cb'.successCount = cb.successCount + 1) ∧
      (cb.successCount + 1 ≥ cb.config.SuccessThreshold →
        cb'.state = StateClosed ∧ cb'.failureCount = 0 ∧ cb'.successCount = 0 ∧
          cb'.concurrentCalls = 0) := by
  rw [Execute_halfOpen cb none now hstate hmu]
  have hw := wrapInt64_eq _ hfit
  obtain ⟨config, state, mu, fc, lft, sc, cc, tc, tf, ts, tt⟩ := cb
  simp only at hstate hmu hroom hw
  subst hstate hmu
  have h : ¬ (cc ≥ config.MaxConcurrentCalls) := by omega
  by_cases hs : sc + 1 ≥ config.SuccessThreshold
  · have hs' : ¬ (sc + 1 < config.SuccessThreshold) := by omega
    simp [CircuitBreaker.Lock, CircuitBreaker.Unlock, CircuitBreaker.executeHalfOpen,
      CircuitBreaker.transitionToClosed, StateClosed, StateHalfOpen, h, hw, hs, hs']
  · have hs' : sc + 1 < config.SuccessThreshold := by omega
    simp [CircuitBreaker.Lock, CircuitBreaker.Unlock, CircuitBreaker.executeHalfOpen,
      CircuitBreaker.transitionToClosed, StateClosed, StateHalfOpen, h, hw, hs, hs']

theorem halfOpen_success_counts_witness :
    (∃ cb', ({ New ⟨3, 2, 100 * Millisecond, 1⟩ with state := StateHalfOpen } :
          CircuitBreaker).Execute none 5 = .returned none cb' 1 ∧
        cb'.state = StateHalfOpen ∧ cb'.successCount = 1) ∧
      ∃ cb', ({ New ⟨3, 2, 100 * Millisecond, 1⟩ with
            state := StateHalfOpen, successCount := 1, failureCount := 3 } :
            CircuitBreaker).Execute none 5 = .returned none cb' 1 ∧
        cb'.state = StateClosed ∧ cb'.failureCount = 0 ∧ cb'.successCount = 0 ∧
          cb'.concurrentCalls = 0 := by
  constructor
  · obtain ⟨cb', h1, h2, _⟩ := halfOpen_success_counts
      { New ⟨3, 2, 100 * Millisecond, 1⟩ with state := StateHalfOpen } 5 rfl rfl
      (by decide) (by decide)
    exact ⟨cb', h1, h2 (by decide)⟩
  · obtain ⟨cb', h1, _, h3⟩ := halfOpen_success_counts
      { New ⟨3, 2, 100 * Millisecond, 1⟩ with
        state := StateHalfOpen, successCount := 1, failureCount := 3 } 5 rfl rfl
      (by decide) (by decide)
    exact ⟨cb', h1, h3 (by decide)⟩

theorem Execute_closed_success (cb : CircuitBreaker) (now : Int)
    (hstate : cb.state = StateClosed) (hmu : cb.mu = false) :
    cb.Execute none now =
      .returned none { cb with failureCount := 0,
                               totalCalls := wrapInt64 (cb.totalCalls + 1),
                               totalSuccesses := wrapInt64 (cb.totalSuccesses + 1) } 1 := by
  rw [Execute_closed cb none now hstate hmu]
  obtain ⟨config, state, mu, fc, lft, sc, cc, tc, tf, ts, tt⟩ := cb
  simp only at hstate hmu
  subst hstate hmu
  simp [CircuitBreaker.executeClosed, CircuitBreaker.Lock, CircuitBreaker.Unlock]

theorem Execute_open_after_timeout (cb : CircuitBreaker) (fn : Option GoError)
    (now : Int) (hstate : cb.state = StateOpen) (hmu : cb.mu = false)
    (hlate : timeSince now cb.lastFailureTime ≥ cb.config.Timeout) :
    cb.Execute fn now =
      .blocked { cb with state := StateHalfOpen, successCount := 0, concurrentCalls := 0,
                         mu := true } 0 := by
  rw [Execute_open cb fn now hstate hmu]
  obtain ⟨config, state, mu, fc, lft, sc, cc, tc, tf, ts, tt⟩ := cb
  simp only at hstate hmu hlate
  subst hstate hmu
  simp [CircuitBreaker.Lock, CircuitBreaker.executeOpen, CircuitBreaker.executeHalfOpen,
    CircuitBreaker.transitionToHalfOpen, StateOpen, StateHalfOpen, hlate]

theorem New_totalsAfter (config : Config) : (New config).totalsAfter 0 := by
  unfold CircuitBreaker.totalsAfter
  simp [New]

/-- One returned `Execute` call on a breaker whose totals account for `k`
calls: the totals account for `k + 1` calls afterwards, and the call was
either admitted or rejected with `ErrCircuitOpen`. -/
theorem Execute_totals_step (cb : CircuitBreaker) (k : Nat) (fn : Option GoError) (now : Int)
    (err : Option GoError) (cb' : CircuitBreaker) (n : Nat)
    (hk : (k : Int) < 9223372036854775807) (ht : cb.totalsAfter k)
    (hex : cb.Execute fn now = .returned err cb' n) :
    cb'.totalsAfter (k + 1) ∧
      ((n = 1 ∧ err = fn ∧ cb'.totalCalls = cb.totalCalls + 1 ∧
          cb'.totalTimeouts = cb.totalTimeouts ∧
          cb'.totalFailures = cb.totalFailures + (if fn.isSome then 1 else 0) ∧
          cb'.totalSuccesses = cb.totalSuccesses + (if fn.isSome then 0 else 1)) ∨
        (n = 0 ∧ err = some .ErrCircuitOpen ∧ cb'.totalCalls = cb.totalCalls ∧
          cb'.totalTimeouts = cb.totalTimeouts + 1 ∧
          cb'.totalFailures = cb.totalFailures ∧
          cb'.totalSuccesses = cb.totalSuccesses)) := by
  obtain ⟨hmu, hst, hf, hs, htt, hsum, hcnt⟩ := ht
  have wc : wrapInt64 (cb.totalCalls + 1) = cb.totalCalls + 1 := by
    apply wrapInt64_eq; unfold IsInt64; omega
  have wf : wrapInt64 (cb.totalFailures + 1) = cb.totalFailures + 1 := by
    apply wrapInt64_eq; unfold IsInt64; omega
  have ws : wrapInt64 (cb.totalSuccesses + 1) = cb.totalSuccesses + 1 := by
    apply wrapInt64_eq; unfold IsInt64; omega
  have wt : wrapInt64 (cb.totalTimeouts + 1) = cb.totalTimeouts + 1 := by
    apply wrapInt64_eq; unfold IsInt64; omega
  rcases hst with hc | ho
  · cases fn with
    | none =>
      rw [Execute_closed_success cb now hc hmu, wc, ws] at hex
      injection hex with he hcb hn
      subst he hcb hn
      refine ⟨⟨hmu, Or.inl hc, hf, ?_, htt, ?_, ?_⟩, Or.inl ⟨rfl, rfl, rfl, rfl, ?_, ?_⟩⟩
      · show 0 ≤ cb.totalSuccesses + 1; omega
      · show cb.totalCalls + 1 = cb.totalFailures + (cb.totalSuccesses + 1); omega
      · show cb.totalCalls + 1 + cb.totalTimeouts = ((k + 1 : Nat) : Int); push_cast; omega
      · simp
      · simp
    | some e =>
      rw [Execute_closed_failure cb e now hc hmu, wc, wf] at hex
      injection hex with he hcb hn
      subst he hcb hn
      by_cases hthr : wrapInt64 (cb.failureCount + 1) ≥ cb.config.FailureThreshold
      · rw [if_pos hthr]
        refine ⟨⟨hmu, Or.inr rfl, ?_, hs, htt, ?_, ?_⟩, Or.inl ⟨rfl, rfl, rfl, rfl, ?_, ?_⟩⟩
        · show 0 ≤ cb.totalFailures + 1; omega
        · show cb.totalCalls + 1 = cb.totalFailures + 1 + cb.totalSuccesses; omega
        · show cb.totalCalls + 1 + cb.totalTimeouts = ((k + 1 : Nat) : Int); push_cast; omega
        · simp
        · simp
      · rw [if_neg hthr]
        refine ⟨⟨hmu, Or.inl hc, ?_, hs, htt, ?_, ?_⟩, Or.inl ⟨rfl, rfl, rfl, rfl, ?_, ?_⟩⟩
        · show 0 ≤ cb.totalFailures + 1; omega
        · show cb.totalCalls + 1 = cb.totalFailures + 1 + cb.totalSuccesses; omega
        · show cb.totalCalls + 1 + cb.totalTimeouts = ((k + 1 : Nat) : Int); push_cast; omega
        · simp
        · simp
  · by_cases hearly : timeSince now cb.lastFailureTime < cb.config.Timeout
    · rw [Execute_open_before_timeout cb fn now ho hmu hearly, wt] at hex
      injection hex with he hcb hn
      subst he hcb hn
      refine ⟨⟨hmu, Or.inr ho, hf, hs, ?_, hsum, ?_⟩, Or.inr ⟨rfl, rfl, rfl, rfl, rfl, rfl⟩⟩
      · show 0 ≤ cb.totalTimeouts + 1; omega
      · show cb.totalCalls + (cb.totalTimeouts + 1) = ((k + 1 : Nat) : Int); push_cast; omega
    · rw [Execute_open_after_timeout cb fn now ho hmu (by omega)] at hex
      cases hex

theorem ExecuteAll_totals (calls : List (Option GoError × Int)) :
    ∀ (cb : CircuitBreaker) (k : Nat) (errs : List (Option GoError)) (cb' : CircuitBreaker),
      cb.totalsAfter k → ((k + calls.length : Nat) : Int) ≤ 9223372036854775807 →
      cb.ExecuteAll calls = some (errs, cb') → cb'.totalsAfter (k + calls.length) := by
  induction calls with
  | nil =>
    intro cb k errs cb' ht _ hrun
    simp only [CircuitBreaker.ExecuteAll, Option.some.injEq, Prod.mk.injEq] at hrun
    rw [← hrun.2]; exact ht
  | cons c rest ih =>
    intro cb k errs cb' ht hk hrun
    obtain ⟨fn, now⟩ := c
    simp only [CircuitBreaker.ExecuteAll] at hrun
    simp only [List.length_cons] at hk ⊢
    cases hx : cb.Execute fn now with
    | blocked b m => rw [hx] at hrun; cases hrun
    | returned err cb1 m =>
      rw [hx] at hrun
      simp only [] at hrun
      cases hr : cb1.ExecuteAll rest with
      | none => rw [hr] at hrun; cases hrun
      | some p =>
        obtain ⟨errs1, cb2⟩ := p
        rw [hr] at hrun
        simp only [Option.some.injEq, Prod.mk.injEq] at hrun
        have h1 := (Execute_totals_step cb k fn now err cb1 m (by push_cast at hk; omega) ht hx).1
        have h2 := ih cb1 (k + 1) errs1 cb2 h1 (by push_cast at hk ⊢; omega) hr
        rw [← hrun.2]
        have : k + (rest.length + 1) = k + 1 + rest.length := by omega
        rw [this]; exact h2

/-- C24: after any sequence of `Execute` calls made one after the other on a
breaker from `New`, each of which returned, `total_calls` is the sum of
`total_failures` and `total_successes`, as fields and in the snapshot of
`GetMetrics`, and the calls split into admitted and rejected ones. The next
call that returns is either admitted, invokes the guarded operation once,
adds 1 to `total_calls` and 1 to `total_failures` or `total_successes`
according to the result of the operation, or it is rejected with
`ErrCircuitOpen`, invokes nothing, adds 1 to `total_timeouts` and leaves
`total_calls` as it is. The number of calls is taken to be below 2^63 - 1. -/
theorem totals_consistent (config : Config) (calls : List (Option GoError × Int))
    (errs : List (Option GoError)) (cb : CircuitBreaker)
    (hlen : (calls.length : Int) < 9223372036854775807)
    (hrun : (New config).ExecuteAll calls = some (errs, cb)) :
    cb.totalCalls = cb.totalFailures + cb.totalSuccesses ∧
      cb.totalCalls + cb.totalTimeouts = calls.length ∧
      (∃ m, cb.GetMetrics = some m ∧ m.total_calls = m.total_failures + m.total_successes ∧
        m.total_calls + m.total_timeouts = calls.length) ∧
      ∀ fn now err cb' n, cb.Execute fn now = .returned err cb' n →
        (n = 1 ∧ err = fn ∧ cb'.totalCalls = cb.totalCalls + 1 ∧
            cb'.totalTimeouts = cb.totalTimeouts ∧
            cb'.totalFailures = cb.totalFailures + (if fn.isSome then 1 else 0) ∧
            cb'.totalSuccesses = cb.totalSuccesses + (if fn.isSome then 0 else 1)) ∨
          (n = 0 ∧ err = some .ErrCircuitOpen ∧ cb'.totalCalls = cb.totalCalls ∧
            cb'.totalTimeouts = cb.totalTimeouts + 1 ∧
            cb'.totalFailures = cb.totalFailures ∧
            cb'.totalSuccesses = cb.totalSuccesses) := by
  have ht := ExecuteAll_totals calls (New config) 0 errs cb (New_totalsAfter config)
    (by push_cast; omega) hrun
  rw [zero_add] at ht
  have hmu := ht.1
  refine ⟨ht.2.2.2.2.2.1, ht.2.2.2.2.2.2, ?_, ?_⟩
  · refine ⟨_, by simp only [CircuitBreaker.GetMetrics, hmu]; rfl, ht.2.2.2.2.2.1,
      ht.2.2.2.2.2.2⟩
  · intro fn now err cb' n hex
    exact (Execute_totals_step cb calls.length fn now err cb' n hlen ht hex).2

theorem totals_consistent_witness :
    ∃ cb, (New ⟨2, 2, 100 * Millisecond, 1⟩).ExecuteAll
          [(none, 1), (some (.errorString "e"), 2), (some (.errorString "e"), 3), (none, 4)]
        = some ([none, some (.errorString "e"), some (.errorString "e"),
            some .ErrCircuitOpen], cb) ∧
      cb.totalCalls = 3 ∧ cb.totalFailures = 2 ∧ cb.totalSuccesses = 1 ∧
      cb.totalTimeouts = 1 ∧
      cb.totalCalls = cb.totalFailures + cb.totalSuccesses := by
  have hrun : (New ⟨2, 2, 100 * Millisecond, 1⟩).ExecuteAll
        [(none, 1), (some (.errorString "e"), 2), (some (.errorString "e"), 3), (none, 4)]
      = some ([none, some (.errorString "e"), some (.errorString "e"), some .ErrCircuitOpen],
          { New ⟨2, 2, 100 * Millisecond, 1⟩ with
            state := StateOpen, failureCount := 2, lastFailureTime := 3, totalCalls := 3,
            totalFailures := 2, totalSuccesses := 1, totalTimeouts := 1 }) := by decide
  exact ⟨_, hrun, rfl, rfl, rfl, rfl,
    (totals_consistent ⟨2, 2, 100 * Millisecond, 1⟩
      [(none, 1), (some (.errorString "e"), 2), (some (.errorString "e"), 3), (none, 4)]
      _ _ (by decide) hrun).1⟩

/-! ## The list of sent messages -/

/-- C25: the use case applies no defaults. A request without page and limit
passes the query binding with both fields 0; the store is asked for offset 0
and limit 0 and the computation of the page count divides by zero, so the
call panics. With the page omitted and limit 5 the store is asked for offset
-5 and the answer carries page 0. With both values given the offset is
`(page - 1) * limit` and the page count is the rounded-up quotient: total 2
and limit 10 give 1 page, page 2 and limit 5 give offset 5. -/
theorem omitted_limit_divides_by_zero :
    GetMessagesRequest.accepted ⟨0, 0⟩ ∧
      GetMessagesUseCase.Execute sampleService ⟨0, 0⟩ 0
        = (.panicked "runtime error: integer divide by zero", 2,
            [.GetSentMessages 0 0 (.ok []), .GetTotalSentCount (.ok 2)]) ∧
      GetMessagesRequest.accepted ⟨0, 5⟩ ∧
      GetMessagesUseCase.Execute sampleService ⟨0, 5⟩ 0
        = (.returned (some ⟨[], ⟨0, 5, 2, 1⟩⟩) none, 2,
            [.GetSentMessages (-5) 5 (.ok []), .GetTotalSentCount (.ok 2)]) ∧
      GetMessagesUseCase.Execute sampleService ⟨1, 10⟩ 0
        = (.returned (some ⟨[], ⟨1, 10, 2, 1⟩⟩) none, 2,
            [.GetSentMessages 0 10 (.ok []), .GetTotalSentCount (.ok 2)]) ∧
      GetMessagesUseCase.Execute sampleService ⟨2, 5⟩ 0
        = (.returned (some ⟨[], ⟨2, 5, 2, 1⟩⟩) none, 2,
            [.GetSentMessages 5 5 (.ok []), .GetTotalSentCount (.ok 2)]) :=
  ⟨⟨Or.inl rfl, Or.inl rfl⟩, by decide, ⟨Or.inl rfl, Or.inr (by decide)⟩, by decide,
    by decide, by decide⟩

/-! ## Concurrent probes -/

theorem executeHalfOpen_eq_probe (cb : CircuitBreaker) (fn : Option GoError)
    (hmu : cb.mu = false) :
    cb.executeHalfOpen fn =
      if cb.admitProbe.2 then .returned fn (cb.admitProbe.1.completeProbe fn) 1
      else .returned (some .ErrCircuitHalfOpen) cb.admitProbe.1 0 := by
  obtain ⟨config, state, mu, fc, lft, sc, cc, tc, tf, ts, tt⟩ := cb
  simp only at hmu
  subst hmu
  by_cases hc : cc ≥ config.MaxConcurrentCalls
  · simp [CircuitBreaker.executeHalfOpen, CircuitBreaker.admitProbe, CircuitBreaker.Lock,
      CircuitBreaker.Unlock, hc]
  · cases fn with
    | none =>
      by_cases hs : wrapInt64 (sc + 1) ≥ config.SuccessThreshold <;>
        by_cases hst : state = StateClosed <;>
        simp [CircuitBreaker.executeHalfOpen, CircuitBreaker.admitProbe,
          CircuitBreaker.completeProbe, CircuitBreaker.Lock, CircuitBreaker.Unlock,
          CircuitBreaker.transitionToClosed, hc, hs, hst]
    | some e =>
      by_cases hst : state = StateOpen <;>
        simp [CircuitBreaker.executeHalfOpen, CircuitBreaker.admitProbe,
          CircuitBreaker.completeProbe, CircuitBreaker.Lock, CircuitBreaker.Unlock,
          CircuitBreaker.transitionToOpen, hc, hst]

/-- C30: a breaker with `MaxConcurrentCalls = 2` that has just become
HalfOpen admits two callers, which brings the in-flight probe count to 2.
The probe of the first fails: the count goes to 1 and the transition to Open
sets it to 0. The second, still in flight, then completes and decrements the
count to -1. -/
theorem probe_count_goes_negative :
    ∃ cb0 cb2 cb3 cb4,
      cb0 = ({ New ⟨3, 2, 100 * Millisecond, 2⟩ with
          state := StateOpen, failureCount := 3 } : CircuitBreaker).transitionToHalfOpen ∧
      cb0.state = StateHalfOpen ∧ cb0.concurrentCalls = 0 ∧ cb0.config.MaxConcurrentCalls = 2 ∧
      cb0.probeSteps 0 [.admission, .admission] = some (cb2, 2) ∧ cb2.concurrentCalls = 2 ∧
      cb2.probeSteps 2 [.complete (some (.errorString "probe failed"))] = some (cb3, 1) ∧
      cb3.state = StateOpen ∧ cb3.concurrentCalls = 0 ∧
      cb3.probeSteps 1 [.complete (some (.errorString "probe failed"))] = some (cb4, 0) ∧
      cb4.concurrentCalls = -1 ∧
      cb0.probeSteps 0 [.admission, .admission, .complete (some (.errorString "probe failed")),
        .complete (some (.errorString "probe failed"))] = some (cb4, 0) ∧
      ¬ (0 ≤ cb4.concurrentCalls ∧ cb4.concurrentCalls ≤ cb4.config.MaxConcurrentCalls) :=
  ⟨_, _, _, _, rfl, rfl, rfl, rfl, rfl, rfl, rfl, rfl, rfl, rfl, rfl, rfl, by decide⟩

/-! ## Reachable states of the breaker -/

theorem New_wellFormed (config : Config) (hF : IsInt64 config.FailureThreshold)
    (hS : IsInt64 config.SuccessThreshold) : (New config).wellFormed := by
  unfold IsInt64 at hF hS
  unfold CircuitBreaker.wellFormed New IsInt64
  by_cases h1 : config.FailureThreshold ≤ 0 <;> by_cases h2 : config.SuccessThreshold ≤ 0 <;>
    by_cases h3 : config.Timeout ≤ 0 <;> by_cases h4 : config.MaxConcurrentCalls ≤ 0 <;>
    simp [h1, h2, h3, h4, StateClosed, StateHalfOpen, StateOpen] <;> omega

theorem Execute_wellFormed (cb : CircuitBreaker) (fn : Option GoError) (now : Int)
    (err : Option GoError) (cb' : CircuitBreaker) (n : Nat) (hw : cb.wellFormed)
    (hex : cb.Execute fn now = .returned err cb' n) :
    cb'.wellFormed ∧ cb'.config = cb.config := by
  obtain ⟨hmu, hst, hF, hS, hM, hFi, hSi, hfc, hcl, hcc, hsc0, hscH⟩ := hw
  unfold IsInt64 at hFi hSi
  rcases hst with hc | hh | ho
  · have hlt := hcl hc
    have hs0 := hsc0 (by rw [hc]; decide)
    cases fn with
    | none =>
      rw [Execute_closed_success cb now hc hmu] at hex
      injection hex with he hcb hn
      subst hcb
      refine ⟨⟨hmu, Or.inl hc, hF, hS, hM, hFi, hSi, le_refl _, fun _ => ?_, hcc, hsc0, hscH⟩,
        rfl⟩
      show (0 : Int) < cb.config.FailureThreshold
      omega
    | some e =>
      have hwrap : wrapInt64 (cb.failureCount + 1) = cb.failureCount + 1 := by
        apply wrapInt64_eq; unfold IsInt64; omega
      rw [Execute_closed_failure cb e now hc hmu, hwrap] at hex
      injection hex with he hcb hn
      subst hcb
      by_cases hthr : cb.failureCount + 1 ≥ cb.config.FailureThreshold
      · rw [if_pos hthr]
        refine ⟨⟨hmu, Or.inr (Or.inr rfl), hF, hS, hM, hFi, hSi, ?_, ?_, rfl, fun _ => rfl, ?_⟩,
          rfl⟩
        · show 0 ≤ cb.failureCount + 1; omega
        · intro h; simp [StateOpen, StateClosed, StateHalfOpen] at h
        · intro h; simp [StateOpen, StateClosed, StateHalfOpen] at h
      · rw [if_neg hthr]
        refine ⟨⟨hmu, Or.inl hc, hF, hS, hM, hFi, hSi, ?_, fun _ => ?_, hcc, hsc0, hscH⟩, rfl⟩
        · show 0 ≤ cb.failureCount + 1; omega
        · show cb.failureCount + 1 < cb.config.FailureThreshold; omega
  · obtain ⟨hsc1, hsc2⟩ := hscH hh
    rw [Execute_halfOpen cb fn now hh hmu, executeHalfOpen_eq_probe cb fn hmu] at hex
    obtain ⟨config, state, mu, fc, lft, sc, cc, tc, tf, ts, tt⟩ := cb
    simp only at hmu hh hF hS hM hFi hSi hfc hcc hsc1 hsc2
    subst hmu hh hcc
    have hroom : ¬ ((0 : Int) ≥ config.MaxConcurrentCalls) := by omega
    have hw1 : wrapInt64 ((0 : Int) + 1) = 1 := by decide
    have hw0 : wrapInt64 ((1 : Int) - 1) = 0 := by decide
    have hws : wrapInt64 (sc + 1) = sc + 1 := by
      apply wrapInt64_eq; unfold IsInt64; omega
    cases fn with
    | some e =>
      simp only [CircuitBreaker.admitProbe, CircuitBreaker.completeProbe,
        CircuitBreaker.transitionToOpen, hroom, if_false, if_true, hw1, hw0] at hex
      rw [if_pos (by decide)] at hex
      injection hex with he hcb hn
      subst hcb
      refine ⟨⟨rfl, Or.inr (Or.inr rfl), hF, hS, hM, hFi, hSi, hfc, ?_, rfl, fun _ => rfl, ?_⟩,
        rfl⟩
      · intro h; simp [StateOpen, StateClosed, StateHalfOpen] at h
      · intro h; simp [StateOpen, StateClosed, StateHalfOpen] at h
    | none =>
      simp only [CircuitBreaker.admitProbe, CircuitBreaker.completeProbe,
        CircuitBreaker.transitionToClosed, hroom, if_false, if_true, hw1, hw0, hws] at hex
      by_cases hs : sc + 1 ≥ config.SuccessThreshold
      · rw [if_pos hs, if_pos (by decide)] at hex
        injection hex with he hcb hn
        subst hcb
        refine ⟨⟨rfl, Or.inl rfl, hF, hS, hM, hFi, hSi, le_refl _, fun _ => ?_, rfl,
          fun _ => rfl, ?_⟩, rfl⟩
        · show (0 : Int) < config.FailureThreshold; omega
        · intro h; simp [StateOpen, StateClosed, StateHalfOpen] at h
      · rw [if_neg hs] at hex
        injection hex with he hcb hn
        subst hcb
        refine ⟨⟨rfl, Or.inr (Or.inl rfl), hF, hS, hM, hFi, hSi, hfc, ?_, rfl, ?_, fun _ => ?_⟩,
          rfl⟩
        · intro h; simp [StateOpen, StateClosed, StateHalfOpen] at h
        · intro h; exact absurd rfl h
        · show 0 ≤ sc + 1 ∧ sc + 1 < config.SuccessThreshold; omega
  · by_cases hearly : timeSince now cb.lastFailureTime < cb.config.Timeout
    · rw [Execute_open_before_timeout cb fn now ho hmu hearly] at hex
      injection hex with he hcb hn
      subst hcb
      exact ⟨⟨hmu, Or.inr (Or.inr ho), hF, hS, hM, hFi, hSi, hfc, hcl, hcc, hsc0, hscH⟩, rfl⟩
    · rw [Execute_open_after_timeout cb fn now ho hmu (by omega)] at hex
      cases hex

theorem apply_wellFormed (cb : CircuitBreaker) (op : BreakerOp) (cb' : CircuitBreaker)
    (hw : cb.wellFormed) (hap : cb.apply op = some cb') :
    cb'.wellFormed ∧ cb'.config = cb.config := by
  cases op with
  | Execute fn now =>
    simp only [CircuitBreaker.apply] at hap
    cases hx : cb.Execute fn now with
    | blocked b m => rw [hx] at hap; cases hap
    | returned err cb1 m =>
      rw [hx] at hap
      simp only [Option.some.injEq] at hap
      subst hap
      exact Execute_wellFormed cb fn now err cb1 m hw hx
  | ForceOpen =>
    obtain ⟨hmu, hst, hF, hS, hM, hFi, hSi, hfc, hcl, hcc, hsc0, hscH⟩ := hw
    obtain ⟨config, state, mu, fc, lft, sc, cc, tc, tf, ts, tt⟩ := cb
    simp only at hmu hst hF hS hM hFi hSi hfc hcl hcc hsc0 hscH
    subst hmu hcc
    by_cases ho : state = StateOpen
    · subst ho
      simp only [CircuitBreaker.apply, CircuitBreaker.ForceOpen, CircuitBreaker.Lock,
        CircuitBreaker.Unlock, CircuitBreaker.transitionToOpen, Bool.false_eq_true, if_false,
        ne_eq, not_true_eq_false, Option.some.injEq] at hap
      subst hap
      exact ⟨⟨rfl, hst, hF, hS, hM, hFi, hSi, hfc, hcl, rfl, hsc0, hscH⟩, rfl⟩
    · simp only [CircuitBreaker.apply, CircuitBreaker.ForceOpen, CircuitBreaker.Lock,
        CircuitBreaker.Unlock, CircuitBreaker.transitionToOpen, Bool.false_eq_true, if_false,
        ne_eq, ho, not_false_eq_true, if_true, Option.some.injEq] at hap
      subst hap
      refine ⟨⟨rfl, Or.inr (Or.inr rfl), hF, hS, hM, hFi, hSi, hfc, ?_, rfl, fun _ => rfl, ?_⟩,
        rfl⟩
      · intro h; simp [StateOpen, StateClosed, StateHalfOpen] at h
      · intro h; simp [StateOpen, StateClosed, StateHalfOpen] at h
  | ForceClose =>
    obtain ⟨hmu, hst, hF, hS, hM, hFi, hSi, hfc, hcl, hcc, hsc0, hscH⟩ := hw
    obtain ⟨config, state, mu, fc, lft, sc, cc, tc, tf, ts, tt⟩ := cb
    simp only at hmu hst hF hS hM hFi hSi hfc hcl hcc hsc0 hscH
    subst hmu hcc
    by_cases ho : state = StateClosed
    · subst ho
      simp only [CircuitBreaker.apply, CircuitBreaker.ForceClose, CircuitBreaker.Lock,
        CircuitBreaker.Unlock, CircuitBreaker.transitionToClosed, Bool.false_eq_true, if_false,
        ne_eq, not_true_eq_false, Option.some.injEq] at hap
      subst hap
      exact ⟨⟨rfl, hst, hF, hS, hM, hFi, hSi, hfc, hcl, rfl, hsc0, hscH⟩, rfl⟩
    · simp only [CircuitBreaker.apply, CircuitBreaker.ForceClose, CircuitBreaker.Lock,
        CircuitBreaker.Unlock, CircuitBreaker.transitionToClosed, Bool.false_eq_true, if_false,
        ne_eq, ho, not_false_eq_true, if_true, Option.some.injEq] at hap
      subst hap
      refine ⟨⟨rfl, Or.inl rfl, hF, hS, hM, hFi, hSi, le_refl _, fun _ => ?_, rfl,
        fun _ => rfl, ?_⟩, rfl⟩
      · show (0 : Int) < config.FailureThreshold; omega
      · intro h; simp [StateOpen, StateClosed, StateHalfOpen] at h
  | Reset =>
    obtain ⟨hmu, hst, hF, hS, hM, hFi, hSi, hfc, hcl, hcc, hsc0, hscH⟩ := hw
    obtain ⟨config, state, mu, fc, lft, sc, cc, tc, tf, ts, tt⟩ := cb
    simp only at hmu hst hF hS hM hFi hSi hfc hcl hcc hsc0 hscH
    subst hmu hcc
    simp only [CircuitBreaker.apply, CircuitBreaker.Reset, CircuitBreaker.Lock,
      CircuitBreaker.Unlock, Bool.false_eq_true, if_false, Option.some.injEq] at hap
    subst hap
    refine ⟨⟨rfl, Or.inl rfl, hF, hS, hM, hFi, hSi, le_refl _, fun _ => ?_, rfl,
      fun _ => rfl, ?_⟩, rfl⟩
    · show (0 : Int) < config.FailureThreshold; omega
    · intro h; simp [StateOpen, StateClosed, StateHalfOpen] at h

theorem applyAll_wellFormed (ops : List BreakerOp) :
    ∀ (cb cb' : CircuitBreaker), cb.wellFormed → cb.applyAll ops = some cb' →
      cb'.wellFormed ∧ cb'.config = cb.config := by
  induction ops with
  | nil =>
    intro cb cb' hw hrun
    simp only [CircuitBreaker.applyAll, Option.some.injEq] at hrun
    subst hrun
    exact ⟨hw, rfl⟩
  | cons op rest ih =>
    intro cb cb' hw hrun
    simp only [CircuitBreaker.applyAll] at hrun
    cases hx : cb.apply op with
    | none => rw [hx] at hrun; cases hrun
    | some cb1 =>
      rw [hx] at hrun
      simp only [] at hrun
      obtain ⟨hw1, hc1⟩ := apply_wellFormed cb op cb1 hw hx
      obtain ⟨hw2, hc2⟩ := ih cb1 cb' hw1 hrun
      exact ⟨hw2, hc2.trans hc1⟩

theorem New_thresholds (config : Config) :
    (New config).config.FailureThreshold
        = (if config.FailureThreshold ≤ 0 then 5 else config.FailureThreshold) ∧
      (New config).config.SuccessThreshold
        = (if config.SuccessThreshold ≤ 0 then 3 else config.SuccessThreshold) := by
  unfold New
  by_cases h1 : config.FailureThreshold ≤ 0 <;> by_cases h2 : config.SuccessThreshold ≤ 0 <;>
    by_cases h3 : config.Timeout ≤ 0 <;> by_cases h4 : config.MaxConcurrentCalls ≤ 0 <;>
    simp [h1, h2, h3, h4]

theorem apply_closed_or_open (cb : CircuitBreaker) (op : BreakerOp) (cb' : CircuitBreaker)
    (hmu : cb.mu = false) (hst : cb.state = StateClosed ∨ cb.state = StateOpen)
    (hap : cb.apply op = some cb') :
    cb'.state = StateClosed ∨ cb'.state = StateOpen := by
  cases op with
  | Execute fn now =>
    simp only [CircuitBreaker.apply] at hap
    rcases hst with hc | ho
    · cases fn with
      | none =>
        rw [Execute_closed_success cb now hc hmu] at hap
        simp only [Option.some.injEq] at hap
        subst hap
        exact Or.inl hc
      | some e =>
        rw [Execute_closed_failure cb e now hc hmu] at hap
        simp only [Option.some.injEq] at hap
        subst hap
        split
        · exact Or.inr rfl
        · exact Or.inl hc
    · by_cases hearly : timeSince now cb.lastFailureTime < cb.config.Timeout
      · rw [Execute_open_before_timeout cb fn now ho hmu hearly] at hap
        simp only [Option.some.injEq] at hap
        subst hap
        exact Or.inr ho
      · rw [Execute_open_after_timeout cb fn now ho hmu (by omega)] at hap
        cases hap
  | ForceOpen =>
    obtain ⟨config, state, mu, fc, lft, sc, cc, tc, tf, ts, tt⟩ := cb
    simp only at hmu hst
    subst hmu
    by_cases ho : state = StateOpen <;>
      simp [CircuitBreaker.apply, CircuitBreaker.ForceOpen, CircuitBreaker.Lock,
        CircuitBreaker.Unlock, CircuitBreaker.transitionToOpen, ho] at hap <;>
      subst hap <;> simp [ho]
  | ForceClose =>
    obtain ⟨config, state, mu, fc, lft, sc, cc, tc, tf, ts, tt⟩ := cb
    simp only at hmu hst
    subst hmu
    by_cases ho : state = StateClosed <;>
      simp [CircuitBreaker.apply, CircuitBreaker.ForceClose, CircuitBreaker.Lock,
        CircuitBreaker.Unlock, CircuitBreaker.transitionToClosed, ho] at hap <;>
      subst hap <;> simp [ho]
  | Reset =>
    obtain ⟨config, state, mu, fc, lft, sc, cc, tc, tf, ts, tt⟩ := cb
    simp only at hmu hst
    subst hmu
    simp [CircuitBreaker.apply, CircuitBreaker.Reset, CircuitBreaker.Lock,
      CircuitBreaker.Unlock] at hap
    subst hap
    exact Or.inl rfl

theorem applyAll_closed_or_open (ops : List BreakerOp) :
    ∀ (cb cb' : CircuitBreaker), cb.wellFormed → (cb.state = StateClosed ∨ cb.state = StateOpen) →
      cb.applyAll ops = some cb' → cb'.state = StateClosed ∨ cb'.state = StateOpen := by
  induction ops with
  | nil =>
    intro cb cb' _ hst hrun
    simp only [CircuitBreaker.applyAll, Option.some.injEq] at hrun
    subst hrun
    exact hst
  | cons op rest ih =>
    intro cb cb' hw hst hrun
    simp only [CircuitBreaker.applyAll] at hrun
    cases hx : cb.apply op with
    | none => rw [hx] at hrun; cases hrun
    | some cb1 =>
      rw [hx] at hrun
      simp only [] at hrun
      exact ih cb1 cb' (apply_wellFormed cb op cb1 hw hx).1
        (apply_closed_or_open cb op cb1 hw.1 hst hx) hrun

/-- C28: in every breaker reached from `New config` by calls of `Execute`,
`ForceOpen`, `ForceClose` and `Reset` made one after the other, each of which
returned, the failure threshold is the normalised one (5 for a configured
value below 1), it is at least 1, and a Closed breaker has a failure count
below it. The configured thresholds are taken to be `int` values. -/
theorem closed_failure_count_below_threshold (config : Config) (ops : List BreakerOp)
    (cb : CircuitBreaker) (hF : IsInt64 config.FailureThreshold)
    (hS : IsInt64 config.SuccessThreshold) (hrun : (New config).applyAll ops = some cb) :
    cb.config.FailureThreshold
        = (if config.FailureThreshold ≤ 0 then 5 else config.FailureThreshold) ∧
      1 ≤ cb.config.FailureThreshold ∧
      (cb.state = StateClosed → cb.failureCount < cb.config.FailureThreshold) := by
  obtain ⟨hw, hc⟩ := applyAll_wellFormed ops (New config) cb (New_wellFormed config hF hS) hrun
  refine ⟨?_, hw.2.2.1, hw.2.2.2.2.2.2.2.2.1⟩
  rw [hc]; exact (New_thresholds config).1

theorem closed_failure_count_below_threshold_witness :
    ∃ cb, (New ⟨0, 2, 100 * Millisecond, 1⟩).applyAll
          [.Execute (some (.errorString "e")) 1, .ForceOpen, .Execute none 2, .ForceClose,
           .Execute (some (.errorString "e")) 3, .Execute none 4, .Reset,
           .Execute (some (.errorString "e")) 5] = some cb ∧
      cb.state = StateClosed ∧ cb.failureCount = 1 ∧ cb.config.FailureThreshold = 5 ∧
      (cb.state = StateClosed → cb.failureCount < cb.config.FailureThreshold) := by
  have hrun : (New ⟨0, 2, 100 * Millisecond, 1⟩).applyAll
        [.Execute (some (.errorString "e")) 1, .ForceOpen, .Execute none 2, .ForceClose,
         .Execute (some (.errorString "e")) 3, .Execute none 4, .Reset,
         .Execute (some (.errorString "e")) 5]
      = some { New ⟨0, 2, 100 * Millisecond, 1⟩ with
          failureCount := 1, lastFailureTime := 5, totalCalls := 1, totalFailures := 1 } := by
    decide
  exact ⟨_, hrun, rfl, rfl, rfl,
    (closed_failure_count_below_threshold ⟨0, 2, 100 * Millisecond, 1⟩ _ _ (by decide)
      (by decide) hrun).2.2⟩

/-- C29: in every breaker reached from `New config` by calls of `Execute`,
`ForceOpen`, `ForceClose` and `Reset` made one after the other, each of which
returned, the in-flight probe count is 0, the success count is 0 when the
state is Closed or Open, and the success count is below `SuccessThreshold`
when the state is HalfOpen. The state of such a breaker is Closed or Open.
The configured thresholds are taken to be `int` values. -/
theorem no_probe_in_flight_at_rest (config : Config) (ops : List BreakerOp)
    (cb : CircuitBreaker) (hF : IsInt64 config.FailureThreshold)
    (hS : IsInt64 config.SuccessThreshold) (hrun : (New config).applyAll ops = some cb) :
    cb.concurrentCalls = 0 ∧
      (cb.state = StateClosed ∨ cb.state = StateOpen → cb.successCount = 0) ∧
      (cb.state = StateHalfOpen → cb.successCount < cb.config.SuccessThreshold) ∧
      (cb.state = StateClosed ∨ cb.state = StateOpen) := by
  have hnew := New_wellFormed config hF hS
  obtain ⟨hw, _⟩ := applyAll_wellFormed ops (New config) cb hnew hrun
  obtain ⟨_, _, _, _, _, _, _, _, _, hcc, hsc0, hscH⟩ := hw
  refine ⟨hcc, ?_, fun h => (hscH h).2,
    applyAll_closed_or_open ops (New config) cb hnew (Or.inl rfl) hrun⟩
  rintro (h | h)
  · exact hsc0 (by rw [h]; decide)
  · exact hsc0 (by rw [h]; decide)

theorem no_probe_in_flight_at_rest_witness :
    ∃ cb, (New ⟨2, 2, 100 * Millisecond, 1⟩).applyAll
          [.Execute (some (.errorString "e")) 1, .Execute (some (.errorString "e")) 2,
           .Execute none 3, .ForceClose, .ForceOpen] = some cb ∧
      cb.state = StateOpen ∧ cb.concurrentCalls = 0 ∧ cb.successCount = 0 := by
  have hrun : (New ⟨2, 2, 100 * Millisecond, 1⟩).applyAll
        [.Execute (some (.errorString "e")) 1, .Execute (some (.errorString "e")) 2,
         .Execute none 3, .ForceClose, .ForceOpen]
      = some { New ⟨2, 2, 100 * Millisecond, 1⟩ with
          state := StateOpen, lastFailureTime := 2, totalCalls := 2, totalFailures := 2,
          totalTimeouts := 1 } := by
    decide
  have h := no_probe_in_flight_at_rest ⟨2, 2, 100 * Millisecond, 1⟩ _ _ (by decide)
    (by decide) hrun
  exact ⟨_, hrun, rfl, h.1, h.2.1 (Or.inr rfl)⟩

end InsiderMessageSystem
